import Mathlib

/-!
Verification development for the releaserun badges CI action.

The development shallowly embeds the three source modules:
* `src/badges.ts` — product/version validation, badge-type parsing, badge
  markup rendering (pure string functions);
* `src/readme.ts` — the marker-delimited document splice;
* `src/index.ts` — the URL/path/branch validation and the reconciliation
  driver `run`, modelled as a pure function from configuration plus a
  remote-API oracle to the ordered trace of observable events (outputs,
  warnings, failures, file I/O, remote API calls).

Strings are modelled with Lean `String` (a list of characters); the few
JavaScript primitives involved (`split`, `trim`, `indexOf`, `substring`,
template literals, truthiness of optional strings) are given explicit
executable models next to their uses.
-/

namespace Badges

/-- Model of JavaScript `String.prototype.split` with a one-character
separator, on character lists: splitting never yields an empty list. -/
def chSplit (sep : Char) : List Char → List (List Char)
  | [] => [[]]
  | c :: rest =>
    let r := chSplit sep rest
    if c = sep then [] :: r
    else
      match r with
      | [] => [[c]]
      | h :: t => (c :: h) :: t

/-- Code points treated as whitespace by JavaScript `String.prototype.trim`
(ASCII whitespace, NBSP, the Unicode space separators, line/paragraph
separators, and the BOM). -/
def jsWhitespaceCodes : List Nat :=
  [9, 10, 11, 12, 13, 32, 160, 5760, 8192, 8193, 8194, 8195, 8196, 8197,
   8198, 8199, 8200, 8201, 8202, 8232, 8233, 8239, 8287, 12288, 65279]

/-- Is the character JavaScript trim-whitespace? -/
def isJsSpace (c : Char) : Bool := decide (c.toNat ∈ jsWhitespaceCodes)

/-- Model of `String.prototype.trim` on character lists. -/
def trimList (l : List Char) : List Char :=
  ((l.dropWhile isJsSpace).reverse.dropWhile isJsSpace).reverse

/-- Model of `String.prototype.trim`. -/
def jsTrim (s : String) : String := ⟨trimList s.data⟩

/-- First index at which `pat` occurs in the list, scanning left to right
(auxiliary for the `indexOf` model). -/
def firstIdxAux (pat : List Char) : List Char → Nat → Option Nat
  | [], i => if pat.isPrefixOf ([] : List Char) then some i else none
  | c :: rest, i =>
    if pat.isPrefixOf (c :: rest) then some i else firstIdxAux pat rest (i + 1)

/-- Model of `String.prototype.indexOf`: `none` plays the role of `-1`. -/
def firstIdx (s pat : String) : Option Nat := firstIdxAux pat.data s.data 0

/-- JavaScript truthiness of an optional string (`undefined` and `""` are
falsy). -/
def optTruthy (o : Option String) : Bool :=
  match o with
  | some s => s ≠ ""
  | none => false

/-- The string carried by an optional string, `""` for `undefined`. -/
def optVal (o : Option String) : String := o.getD ""

/-- Model of `a || b` on strings: `b` when `a` is empty. -/
def jsOr (s d : String) : String := if s = "" then d else s

/-- Join a list of strings with a separator (model of `Array.prototype.join`). -/
def strIntercalate (sep : String) : List String → String
  | [] => ""
  | [s] => s
  | s :: rest => s ++ sep ++ strIntercalate sep rest

/-- Class `[a-z0-9]`: the leading character class of the product-name pattern. -/
def isLowerAlphaNum (c : Char) : Bool :=
  (97 ≤ c.toNat && c.toNat ≤ 122) || (48 ≤ c.toNat && c.toNat ≤ 57)

/-- Class `[a-z0-9._-]`: the tail character class of the product-name pattern. -/
def isProdTail (c : Char) : Bool :=
  isLowerAlphaNum c || c = '.' || c = '_' || c = '-'

/-- Class `[a-zA-Z0-9]`: the leading character class of the version pattern. -/
def isAlphaNumC (c : Char) : Bool :=
  isLowerAlphaNum c || (65 ≤ c.toNat && c.toNat ≤ 90)

/-- Class `[a-zA-Z0-9._-]`: the tail character class of the version pattern. -/
def isVerTail (c : Char) : Bool :=
  isAlphaNumC c || c = '.' || c = '_' || c = '-'

/-- Model of `src/badges.ts` `validateProduct`: test of `/^[a-z0-9][a-z0-9._-]*$/`. -/
def validateProduct (name : String) : Bool :=
  match name.data with
  | [] => false
  | c :: rest => isLowerAlphaNum c && rest.all isProdTail

/-- Model of `src/badges.ts` `validateVersion`: `"latest"` or a test of
`/^[a-zA-Z0-9][a-zA-Z0-9._-]*$/`. -/
def validateVersion (version : String) : Bool :=
  version = "latest" ||
    (match version.data with
     | [] => false
     | c :: rest => isAlphaNumC c && rest.all isVerTail)

/-- The closed `BadgeType` enumeration of `src/types.ts`. -/
inductive BadgeType where
  | health
  | eol
  | freshness
  | cve
  | cloud
  deriving DecidableEq, Repr

/-- The string form of a badge type (as it appears in inputs and URLs). -/
def btStr : BadgeType → String
  | .health => "health"
  | .eol => "eol"
  | .freshness => "freshness"
  | .cve => "cve"
  | .cloud => "cloud"

/-- Recognize a badge-type string (`src/badges.ts` `validateBadgeType`,
returning the parsed enumeration value when valid). -/
def parseBadgeType (t : String) : Option BadgeType :=
  if t = "health" then some .health
  else if t = "eol" then some .eol
  else if t = "freshness" then some .freshness
  else if t = "cve" then some .cve
  else if t = "cloud" then some .cloud
  else none

/-- Model of `src/badges.ts` `validateBadgeType`. -/
def validateBadgeType (t : String) : Bool := (parseBadgeType t).isSome

/-- The closed `LinkTo` enumeration of `src/types.ts`
(`'badge-page' | 'releaserun' | 'none'`). -/
inductive LinkTo where
  | badgePage
  | releaserun
  | none
  deriving DecidableEq, Repr

/-- The `Product` record of `src/types.ts`
(`{ product: string; version?: string }`). -/
structure Product where
  product : String
  version : Option String
  deriving DecidableEq, Repr

/-- Constant `MAX_PRODUCTS` in `src/badges.ts`. -/
def maxProducts : Nat := 50

/-- The truncation warning emitted by `parseProducts` when more than
`MAX_PRODUCTS` non-blank lines are present. -/
def truncationWarning : String :=
  "Maximum of 50 products allowed. Only the first 50 will be processed."

/-- Model of `input.split('\n').map(l => l.trim()).filter(l => l.length > 0)` from
`parseProducts`. -/
def nonBlankLines (input : String) : List (List Char) :=
  ((chSplit '\n' input.data).map trimList).filter (fun l => l ≠ [])

/-- Split a line at its first colon (`line.indexOf(':')` plus the two
`substring` calls in `parseProducts`); `none` when the line has no colon. -/
def splitColon : List Char → Option (List Char × List Char)
  | [] => none
  | c :: rest =>
    if c = ':' then some ([], rest)
    else (splitColon rest).map (fun p => (c :: p.1, p.2))

/-- The per-line body of the `parseProducts` loop: either a validated
product, or the warning explaining why the line was dropped.  Mirrors the
JavaScript truthiness tests: an empty version string skips the version
check and is stored as `undefined` (`version || undefined`). -/
def lineResult (line : List Char) : Except String Product :=
  match splitColon line with
  | Option.none =>
    let name : String := ⟨line⟩
    if validateProduct name then Except.ok ⟨name, Option.none⟩
    else Except.error ("Skipping invalid product name: \"" ++ name ++ "\"")
  | some (n, v) =>
    let name : String := ⟨n⟩
    let version : String := ⟨v⟩
    if !validateProduct name then
      Except.error ("Skipping invalid product name: \"" ++ name ++ "\"")
    else if version ≠ "" && !validateVersion version then
      Except.error ("Skipping invalid version \"" ++ version ++
        "\" for product \"" ++ name ++ "\"")
    else Except.ok ⟨name, if version = "" then Option.none else some version⟩

/-- The `parseProducts` loop over the retained lines, accumulating products
and warnings in line order. -/
def processLines : List (List Char) → List Product × List String
  | [] => ([], [])
  | l :: rest =>
    let r := processLines rest
    match lineResult l with
    | Except.ok p => (p :: r.1, r.2)
    | Except.error w => (r.1, w :: r.2)

/-- Model of `src/badges.ts` `parseProducts`: trim and drop blank lines, cap at 50
with a single truncation warning, then validate each retained line. -/
def parseProducts (input : String) : List Product × List String :=
  let lines := nonBlankLines input
  let truncWarn := if lines.length > maxProducts then [truncationWarning] else []
  let r := processLines (lines.take maxProducts)
  (r.1, truncWarn ++ r.2)

/-- ASCII lower-casing of a character (model of `toLowerCase` on the ASCII
inputs this action handles). -/
def charToLower (c : Char) : Char :=
  if 65 ≤ c.toNat && c.toNat ≤ 90 then Char.ofNat (c.toNat + 32) else c

/-- ASCII lower-casing of a character list. -/
def asciiLower (l : List Char) : List Char := l.map charToLower

/-- Model of `src/badges.ts` `parseBadgeTypes`: comma-split, trim, lower-case,
filter to the closed enumeration, defaulting to `health` when nothing
valid remains. -/
def parseBadgeTypes (input : String) : List BadgeType :=
  let types :=
    ((chSplit ',' input.data).map (fun l => asciiLower (trimList l))).filter
      (fun t => t ≠ [])
  let valid := types.filterMap (fun t => parseBadgeType (⟨t⟩ : String))
  if valid.length > 0 then valid else [.health]

/-- The hexadecimal digits used by percent-encoding. -/
def hexDigits : List Char :=
  ['0', '1', '2', '3', '4', '5', '6', '7', '8', '9', 'A', 'B', 'C', 'D', 'E', 'F']

/-- Percent-encode one byte. -/
def hexByte (n : Nat) : List Char :=
  ['%', hexDigits.getD (n / 16 % 16) '0', hexDigits.getD (n % 16) '0']

/-- UTF-8 bytes of a character. -/
def utf8Bytes (c : Char) : List Nat :=
  let n := c.toNat
  if n < 128 then [n]
  else if n < 2048 then [192 + n / 64, 128 + n % 64]
  else if n < 65536 then [224 + n / 4096, 128 + (n / 64) % 64, 128 + n % 64]
  else [240 + n / 262144, 128 + (n / 4096) % 64, 128 + (n / 64) % 64, 128 + n % 64]

/-- The characters `encodeURIComponent` leaves unescaped. -/
def isUriUnreserved (c : Char) : Bool :=
  isAlphaNumC c || c = '-' || c = '_' || c = '.' || c = '!' || c = '~' ||
    c = '*' || c = Char.ofNat 39 || c = '(' || c = ')'

/-- Model of `encodeURIComponent`. -/
def encodeURIComponent (s : String) : String :=
  ⟨s.data.flatMap (fun c =>
    if isUriUnreserved c then [c] else (utf8Bytes c).flatMap hexByte)⟩

/-- The default badge-image base URL in `getBadgeUrl`. -/
def defaultBadgeBase : String := "https://img.releaserun.com/badge"

/-- Model of `src/badges.ts` `getBadgeUrl`. -/
def getBadgeUrl (type : BadgeType) (product : String)
    (version style baseUrl : Option String) : String :=
  let base := jsOr (optVal baseUrl) defaultBadgeBase
  let path :=
    if optTruthy version then
      btStr type ++ "/" ++ product ++ "/" ++ optVal version ++ ".svg"
    else btStr type ++ "/" ++ product ++ ".svg"
  let url := base ++ "/" ++ path
  if optTruthy style && decide (optVal style ≠ "flat") then
    url ++ "?style=" ++ encodeURIComponent (optVal style)
  else url

/-- Model of `src/badges.ts` `getLinkUrl`. -/
def getLinkUrl (linkTo : LinkTo) (product : String) (badgeUrl : String) : String :=
  match linkTo with
  | .badgePage => "https://releaserun.com/badges/" ++ product ++ "/"
  | .releaserun => "https://releaserun.com"
  | .none => badgeUrl

/-- The per-category label word of `getBadgeLabel`. -/
def btLabel : BadgeType → String
  | .health => "health"
  | .eol => "EOL"
  | .freshness => "freshness"
  | .cve => "CVEs"
  | .cloud => "cloud"

/-- Model of `src/badges.ts` `getBadgeLabel`. -/
def getBadgeLabel (type : BadgeType) (product : String)
    (version : Option String) : String :=
  let versionSuffix := if optTruthy version then " " ++ optVal version else ""
  product ++ versionSuffix ++ " " ++ btLabel type

/-- Model of `src/badges.ts` `generateBadgeMarkdown`. -/
def generateBadgeMarkdown (product : Product) (type : BadgeType)
    (style : String) (linkTo : LinkTo) (baseUrl : Option String) : String :=
  let badgeUrl := getBadgeUrl type product.product product.version (some style) baseUrl
  let linkUrl := getLinkUrl linkTo product.product badgeUrl
  let label := getBadgeLabel type product.product product.version
  "[![" ++ label ++ "](" ++ badgeUrl ++ ")](" ++ linkUrl ++ ")"

/-- Model of `src/badges.ts` `generateAllBadges`: badge units of one product joined
by a space, product lines joined by newlines, in order. -/
def generateAllBadges (products : List Product) (badgeTypes : List BadgeType)
    (style : String) (linkTo : LinkTo) (baseUrl : Option String) : String :=
  strIntercalate "\n" (products.map (fun p =>
    strIntercalate " " (badgeTypes.map (fun t =>
      generateBadgeMarkdown p t style linkTo baseUrl))))

/-- Constant `START_MARKER` in `src/readme.ts`. -/
def startMarker : String := "<!-- releaserun-badges-start -->"

/-- Constant `END_MARKER` in `src/readme.ts`. -/
def endMarker : String := "<!-- releaserun-badges-end -->"

/-- The `UpdateResult` record of `src/readme.ts`. -/
structure UpdateResult where
  updated : Bool
  content : String
  markersFound : Bool
  deriving DecidableEq, Repr

/-- Model of `src/readme.ts` `updateReadmeContent`: locate both sentinels, replace
everything strictly between them with a newline-wrapped markup block, and
report whether the result differs from the input. -/
def updateReadmeContent (readme badges : String) : UpdateResult :=
  match firstIdx readme startMarker, firstIdx readme endMarker with
  | some startIdx, some endIdx =>
    if endIdx < startIdx then ⟨false, readme, false⟩
    else
      let before : String := ⟨readme.data.take (startIdx + startMarker.length)⟩
      let after : String := ⟨readme.data.drop endIdx⟩
      let newContent := before ++ "\n" ++ badges ++ "\n" ++ after
      ⟨decide (newContent ≠ readme), newContent, true⟩
  | _, _ => ⟨false, readme, false⟩

/-- Model of `src/readme.ts` `hasMarkers`. -/
def hasMarkers (readme : String) : Bool :=
  (firstIdx readme startMarker).isSome && (firstIdx readme endMarker).isSome

/-- Split a list at the first occurrence of a character; `none` when the
character is absent (generalizes the `indexOf`/`substring` pairs in the
source). -/
def splitAtFirst (sep : Char) : List Char → Option (List Char × List Char)
  | [] => Option.none
  | c :: rest =>
    if c = sep then some ([], rest)
    else (splitAtFirst sep rest).map (fun p => (c :: p.1, p.2))

/-- Class `[0-9]`. -/
def isDigitC (c : Char) : Bool := 48 ≤ c.toNat && c.toNat ≤ 57

/-- Class `[a-zA-Z]`: a URL scheme's leading character. -/
def isSchemeStart (c : Char) : Bool :=
  (97 ≤ c.toNat && c.toNat ≤ 122) || (65 ≤ c.toNat && c.toNat ≤ 90)

/-- A URL scheme's tail characters. -/
def isSchemeChar (c : Char) : Bool :=
  isSchemeStart c || isDigitC c || c = '+' || c = '-' || c = '.'

/-- The `protocol` and `hostname` of a parsed URL, as exposed by the
WHATWG `URL` class. -/
structure UrlParts where
  protocol : String
  hostname : String
  deriving DecidableEq, Repr

/-- Model of `new URL(s)` restricted to the fields `isValidBadgeServiceUrl`
reads (`protocol`, `hostname`), for ASCII hosts: scheme up to the first
colon (lower-cased, trailing colon kept, as `URL.protocol` reports it),
then any run of slashes, then the authority up to the first `/`, `?`, `#`
or `\`; userinfo before a final `@` is dropped, a bracketed IPv6 host
keeps its brackets, a port must be empty or digits, and an empty host is
a parse error (`none`, modelling the constructor throwing). -/
def parseUrl (s : String) : Option UrlParts :=
  match splitAtFirst ':' s.data with
  | Option.none => Option.none
  | some (schemeCs, rest) =>
    match schemeCs with
    | [] => Option.none
    | c :: cs =>
      if !(isSchemeStart c && cs.all isSchemeChar) then Option.none
      else
        let protocol : String := ⟨asciiLower (c :: cs) ++ [':']⟩
        let afterSlashes := rest.dropWhile (fun ch => ch = '/' || ch = '\\')
        let authority := afterSlashes.takeWhile
          (fun ch => !(ch = '/' || ch = '?' || ch = '#' || ch = '\\'))
        let hostPort := (chSplit '@' authority).getLastD []
        if hostPort.head? = some '[' then
          match splitAtFirst ']' (hostPort.drop 1) with
          | Option.none => Option.none
          | some (inside, portPart) =>
            if portPart = [] ||
                (portPart.head? = some ':' && (portPart.drop 1).all isDigitC) then
              some ⟨protocol, ⟨'[' :: (asciiLower inside ++ [']'])⟩⟩
            else Option.none
        else
          let host := hostPort.takeWhile (fun ch => ch != ':')
          let portPart := hostPort.dropWhile (fun ch => ch != ':')
          if host = [] then Option.none
          else if portPart = [] || (portPart.drop 1).all isDigitC then
            some ⟨protocol, ⟨asciiLower host⟩⟩
          else Option.none

/-- The test of `/^\d{1,3}(\.\d{1,3}){3}$/` in `isValidBadgeServiceUrl`. -/
def isIPv4Literal (h : String) : Bool :=
  let parts := chSplit '.' h.data
  parts.length == 4 &&
    parts.all (fun p => decide (1 ≤ p.length) && decide (p.length ≤ 3) && p.all isDigitC)

/-- Model of `startsWith` on strings via list prefixes. -/
def strStartsWith (s pre : String) : Bool := pre.data.isPrefixOf s.data

/-- Model of `endsWith` on strings via list suffixes. -/
def strEndsWith (s suffix : String) : Bool := suffix.data.isSuffixOf s.data

/-- Model of `includes` and of `indexOf >= 0` on strings. -/
def strContainsSub (s sub : String) : Bool := (firstIdx s sub).isSome

/-- Model of `src/index.ts` `isValidBadgeServiceUrl`: HTTPS only, no IP or
localhost hosts, and the host must be `releaserun.com` or end with
`.releaserun.com`. -/
def isValidBadgeServiceUrl (url : String) : Bool :=
  match parseUrl url with
  | Option.none => false
  | some parsed =>
    if parsed.protocol ≠ "https:" then false
    else
      let hostname := parsed.hostname
      if isIPv4Literal hostname || strStartsWith hostname "[" || hostname = "::1" then
        false
      else if hostname = "localhost" || hostname = "127.0.0.1" then false
      else if hostname ≠ "releaserun.com" && !strEndsWith hostname ".releaserun.com" then
        false
      else true

/-- Segment normalization behind `path.resolve` (POSIX): drop empty and
`.` segments, let `..` pop the previous segment (or vanish at the root).
`acc` holds the processed segments in reverse. -/
def normalizeSegs (acc : List (List Char)) : List (List Char) → List (List Char)
  | [] => acc.reverse
  | seg :: rest =>
    if seg = [] || seg = ['.'] then normalizeSegs acc rest
    else if seg = ['.', '.'] then normalizeSegs acc.tail rest
    else normalizeSegs (seg :: acc) rest

/-- Model of Node's `path.resolve` for a single argument against an
absolute working directory: prefix relative paths with `cwd`, then
normalize. -/
def resolvePath (cwd p : String) : String :=
  let s := if strStartsWith p "/" then p else cwd ++ "/" ++ p
  let segs := normalizeSegs [] (chSplit '/' s.data)
  "/" ++ strIntercalate "/" (segs.map (fun l => (⟨l⟩ : String)))

/-- A character matched by the branch-name rejection class
`/[\x00-\x1f\x7f ~^:?*\[\\]/`. -/
def isBadBranchChar (c : Char) : Bool :=
  c.toNat ≤ 31 || c.toNat == 127 || c = ' ' || c = '~' || c = '^' || c = ':' ||
    c = '?' || c = '*' || c = '[' || c = '\\'

/-- The pr-branch rejection test in `run` (ref-injection guard). -/
def invalidBranchName (b : String) : Bool :=
  strContainsSub b ".." || strStartsWith b "/" || strEndsWith b "/" ||
    strEndsWith b ".lock" || b.data.any isBadBranchChar

/-- The valid `style` values. -/
def styleList : List String := ["flat", "flat-square", "plastic", "for-the-badge"]

/-- Recognize a `link-to` value (the membership test on
`['badge-page', 'releaserun', 'none']`). -/
def parseLinkTo (s : String) : Option LinkTo :=
  if s = "badge-page" then some .badgePage
  else if s = "releaserun" then some .releaserun
  else if s = "none" then some .none
  else Option.none

/-- Model of `url.replace(/\/$/, '')`: drop one trailing slash. -/
def stripTrailingSlash (s : String) : String :=
  if strEndsWith s "/" then ⟨s.data.take (s.data.length - 1)⟩ else s

/-- An observable action of `run`, in execution order: workflow outputs,
log lines, failure reports, local file I/O, and remote API calls (the
`commitFile` event carries the raw content; the source base64-encodes it
at the API boundary). -/
inductive Event where
  | setOutput (key value : String)
  | setFailed (msg : String)
  | warning (msg : String)
  | info (msg : String)
  | debug (msg : String)
  | setSecret (v : String)
  | readFile (p : String)
  | writeFile (p content : String)
  | repoGet
  | getRef (ref : String)
  | createRef (ref sha : String)
  | updateRef (ref sha : String) (force : Bool)
  | deleteRef (ref : String)
  | getContent (p ref : String)
  | commitFile (p content message branch : String) (sha : Option String)
  | pullsList (head state : String)
  | pullsUpdate (number : Nat) (title body : String)
  | pullsCreate (title body head base : String)
  deriving DecidableEq, Repr

/-- A pull request as returned by the hosting API. -/
structure PullRequest where
  number : Nat
  htmlUrl : String
  deriving DecidableEq, Repr

/-- Oracle for the remote hosting API: the outcome each call would have in
this run, in the order `run` can issue them.  `Except.error m` is a thrown
error with message `m`.  `getContentSha`/`getContentShaRetry` are the file
revision marker obtained before the commit and before its retry (`none`
covers both a failed lookup and a non-file response, which the source
treats alike). -/
structure RemoteEnv where
  repoInfo : Except String String
  getRefSha : Except String String
  createRefOk : Except String Unit
  updateRefOk : Except String Unit
  deleteRefOk : Except String Unit
  createRefAgainOk : Except String Unit
  getContentSha : Option String
  commitOk : Except String Unit
  getContentShaRetry : Option String
  commitRetryOk : Except String Unit
  listPulls : Except String (List PullRequest)
  updatePullOk : Except String Unit
  createPull : Except String PullRequest
  deriving Repr

/-- The configuration surface of `run`: action inputs as returned by
`core.getInput` (empty string = not provided), the ambient environment,
and the outcome of the local README read/write. -/
structure Config where
  productsInput : String
  badgeTypesInput : String
  readmePathInput : String
  linkToInput : String
  prTitleInput : String
  prBranchInput : String
  styleInput : String
  badgeServiceUrlInput : String
  githubTokenInput : String
  envGithubToken : Option String
  envGithubWorkspace : Option String
  cwd : String
  owner : String
  repo : String
  contextDefaultBranch : Option String
  readFileResult : Except String String
  writeFileResult : Except String Unit
  deriving Repr

/-- What the pre-remote part of `run` hands to the remote part. -/
structure PreState where
  readmePath : String
  prTitle : String
  prBranch : String
  products : List Product
  badgeTypes : List BadgeType
  content : String
  deriving Repr

/-- The configuration values that survive validation. -/
structure ValidConfig where
  badgeTypesInput : String
  readmePath : String
  prTitle : String
  prBranch : String
  style : String
  linkTo : LinkTo
  badgeBaseUrl : Option String
  deriving Repr, DecidableEq

/-- The defaulted pr-branch input (`core.getInput('pr-branch') || ...`). -/
def prBranchOf (cfg : Config) : String :=
  jsOr cfg.prBranchInput "releaserun/badges-update"

/-- The defaulted style input. -/
def styleOf (cfg : Config) : String := jsOr cfg.styleInput "flat"

/-- Model of `core.getInput('badge-service-url') || undefined`. -/
def badgeServiceBaseUrlOf (cfg : Config) : Option String :=
  if cfg.badgeServiceUrlInput = "" then Option.none
  else some cfg.badgeServiceUrlInput

/-- The resolved absolute document path (`path.resolve(readmePath)`). -/
def fullPathOf (cfg : Config) : String :=
  resolvePath cfg.cwd (jsOr cfg.readmePathInput "README.md")

/-- The resolved workspace root
(`path.resolve(process.env.GITHUB_WORKSPACE || process.cwd())`). -/
def workspaceRootOf (cfg : Config) : String :=
  resolvePath cfg.cwd (jsOr (optVal cfg.envGithubWorkspace) cfg.cwd)

/-- The validation prefix of `run` (`src/index.ts` lines 44–94): defaults,
branch-name, style, link-to, badge-service-url and readme-path checks, in
source order.  `Except.error t` is a terminated run with trace `t`. -/
def configPhase (cfg : Config) : Except (List Event) ValidConfig :=
  if invalidBranchName (prBranchOf cfg) then
    Except.error [.setFailed ("Invalid pr-branch: \"" ++ prBranchOf cfg ++
      "\". Branch name contains invalid characters.")]
  else if !styleList.contains (styleOf cfg) then
    Except.error [.setFailed ("Invalid style: \"" ++ styleOf cfg ++
      "\". Must be one of: flat, flat-square, plastic, for-the-badge")]
  else
    match parseLinkTo (jsOr cfg.linkToInput "badge-page") with
    | Option.none =>
      Except.error [.setFailed ("Invalid link-to value: \"" ++
        jsOr cfg.linkToInput "badge-page" ++
        "\". Must be badge-page, releaserun, or none.")]
    | some linkTo =>
      if optTruthy (badgeServiceBaseUrlOf cfg) &&
          !isValidBadgeServiceUrl (optVal (badgeServiceBaseUrlOf cfg)) then
        Except.error [.setFailed ("Invalid badge-service-url: \"" ++
          optVal (badgeServiceBaseUrlOf cfg) ++
          "\". URL must use HTTPS and match *.releaserun.com (no IP addresses or localhost).")]
      else if !strStartsWith (fullPathOf cfg) (workspaceRootOf cfg) then
        Except.error [.setFailed "Invalid readme-path: must be within repository workspace"]
      else
        Except.ok ⟨jsOr cfg.badgeTypesInput "health",
          jsOr cfg.readmePathInput "README.md",
          jsOr cfg.prTitleInput "chore: update version health badges",
          prBranchOf cfg, styleOf cfg, linkTo,
          (badgeServiceBaseUrlOf cfg).map
            (fun u => stripTrailingSlash u ++ "/badge")⟩

/-- The validated products. -/
def productsOf (cfg : Config) : List Product := (parseProducts cfg.productsInput).1

/-- The product-parsing warnings. -/
def productWarnings (cfg : Config) : List String :=
  (parseProducts cfg.productsInput).2

/-- The requested badge types. -/
def badgeTypesOf (v : ValidConfig) : List BadgeType :=
  parseBadgeTypes v.badgeTypesInput

/-- The rendered badge markup of a run. -/
def renderedMarkup (cfg : Config) (v : ValidConfig) : String :=
  generateAllBadges (productsOf cfg) (badgeTypesOf v) v.style v.linkTo
    v.badgeBaseUrl

/-- The result of splicing a document with the run's rendered markup. -/
def spliceOf (cfg : Config) (v : ValidConfig) (doc : String) : UpdateResult :=
  updateReadmeContent doc (renderedMarkup cfg v)

/-- The resolved bearer token
(`core.getInput('github-token') || process.env.GITHUB_TOKEN`). -/
def tokenOf (cfg : Config) : String :=
  jsOr cfg.githubTokenInput (optVal cfg.envGithubToken)

/-- The events from product parsing up to the three early outputs
(`src/index.ts` lines 98–119). -/
def preOutputs (cfg : Config) (v : ValidConfig) : List Event :=
  (productWarnings cfg).map Event.warning ++
    [.info ("Parsed " ++ toString (productsOf cfg).length ++ " product(s)"),
     .info ("Badge types: " ++
       strIntercalate ", " ((badgeTypesOf v).map btStr)),
     .info ("Generated badges for " ++ toString (productsOf cfg).length ++
       " product(s) x " ++ toString (badgeTypesOf v).length ++ " type(s)"),
     .debug ("Generated badge markdown:\n" ++ renderedMarkup cfg v),
     .setOutput "badges-markdown" (renderedMarkup cfg v),
     .setOutput "badges-count"
       (toString ((productsOf cfg).length * (badgeTypesOf v).length)),
     .setOutput "pr-branch" v.prBranch]

/-- The local part of `run` after validation (`src/index.ts` lines
96–164): product parsing, badge rendering, outputs, the README read,
splice and write, and the token check. -/
def contentPhase (cfg : Config) (v : ValidConfig) :
    Except (List Event) (List Event × PreState) :=
  if (productsOf cfg).isEmpty then
    Except.error ((productWarnings cfg).map Event.warning ++
      [.warning "No valid products found in input. Nothing to do."])
  else
    match cfg.readFileResult with
    | Except.error m =>
      Except.error (preOutputs cfg v ++ [.readFile (fullPathOf cfg),
        .setFailed ("Failed to read README at " ++ fullPathOf cfg ++ ": " ++ m)])
    | Except.ok doc =>
      if !(spliceOf cfg v doc).markersFound then
        Except.error (preOutputs cfg v ++ [.readFile (fullPathOf cfg),
          .warning ("No badge markers found in " ++ v.readmePath ++
            ". Add <!-- releaserun-badges-start --> and <!-- releaserun-badges-end --> to your README.")])
      else if !(spliceOf cfg v doc).updated then
        Except.error (preOutputs cfg v ++ [.readFile (fullPathOf cfg),
          .info "No changes detected. Badges are up to date."])
      else
        match cfg.writeFileResult with
        | Except.error m =>
          Except.error (preOutputs cfg v ++ [.readFile (fullPathOf cfg),
            .writeFile (fullPathOf cfg) (spliceOf cfg v doc).content,
            .setFailed ("Failed to write README at " ++ fullPathOf cfg ++
              ": " ++ m)])
        | Except.ok _ =>
          if tokenOf cfg = "" then
            Except.error (preOutputs cfg v ++ [.readFile (fullPathOf cfg),
              .writeFile (fullPathOf cfg) (spliceOf cfg v doc).content,
              .info "README updated with new badges.",
              .setFailed "No GitHub token provided. Set github-token input or GITHUB_TOKEN env var."])
          else
            Except.ok (preOutputs cfg v ++ [.readFile (fullPathOf cfg),
              .writeFile (fullPathOf cfg) (spliceOf cfg v doc).content,
              .info "README updated with new badges.",
              .setSecret (tokenOf cfg)],
              ⟨v.readmePath, v.prTitle, v.prBranch, productsOf cfg,
                badgeTypesOf v, (spliceOf cfg v doc).content⟩)

/-- The part of `run` before any remote call: validation followed by the
local content work. -/
def preRemote (cfg : Config) : Except (List Event) (List Event × PreState) :=
  match configPhase cfg with
  | Except.error t => Except.error t
  | Except.ok v => contentPhase cfg v

/-- Step 1 of the reconciliation protocol: resolve the default branch,
falling back to the workflow context and then `'main'` with a warning
(`src/index.ts` lines 169–178). -/
def resolveDefaultBranch (cfg : Config) (env : RemoteEnv) (acc : List Event) :
    String × List Event :=
  match env.repoInfo with
  | Except.ok b => (b, acc ++ [.repoGet])
  | Except.error m =>
    (jsOr (optVal cfg.contextDefaultBranch) "main",
     acc ++ [.repoGet,
       .warning ("Failed to query repository default branch: " ++ m ++
         ". Falling back to context or 'main'.")])

/-- The hard-abort message when the diverged working branch cannot be
deleted and recreated (`src/index.ts` lines 228–231). -/
def recreateFailMsg (prBranch m : String) : String :=
  "Branch " ++ prBranch ++ " has diverged and could not be recreated: " ++ m ++
    ". Please manually delete the branch and re-run the action."

/-- Step 3 of the reconciliation protocol: create the working-branch ref,
else non-force update, else delete and recreate; failure of the
delete-or-recreate pair is a hard abort (`src/index.ts` lines 187–235). -/
def branchStep (prBranch defaultBranch sha : String) (env : RemoteEnv)
    (acc : List Event) : Except (List Event) (List Event) :=
  match env.createRefOk with
  | Except.ok _ =>
    Except.ok (acc ++ [.createRef ("refs/heads/" ++ prBranch) sha,
      .info ("Created branch " ++ prBranch)])
  | Except.error _ =>
    let acc1 := acc ++ [.createRef ("refs/heads/" ++ prBranch) sha]
    match env.updateRefOk with
    | Except.ok _ =>
      Except.ok (acc1 ++ [.updateRef ("heads/" ++ prBranch) sha false,
        .info ("Updated branch " ++ prBranch)])
    | Except.error m =>
      let acc2 := acc1 ++ [.updateRef ("heads/" ++ prBranch) sha false,
        .warning ("Branch " ++ prBranch ++ " has diverged from " ++
          defaultBranch ++ ": " ++ m),
        .warning "Deleting and recreating branch to avoid destroying manual commits."]
      match env.deleteRefOk with
      | Except.error m2 =>
        Except.error (acc2 ++ [.deleteRef ("heads/" ++ prBranch),
          .setFailed (recreateFailMsg prBranch m2)])
      | Except.ok _ =>
        match env.createRefAgainOk with
        | Except.error m2 =>
          Except.error (acc2 ++ [.deleteRef ("heads/" ++ prBranch),
            .createRef ("refs/heads/" ++ prBranch) sha,
            .setFailed (recreateFailMsg prBranch m2)])
        | Except.ok _ =>
          Except.ok (acc2 ++ [.deleteRef ("heads/" ++ prBranch),
            .createRef ("refs/heads/" ++ prBranch) sha,
            .info ("Recreated branch " ++ prBranch ++ " from " ++ defaultBranch)])

/-- Steps 4–5 of the reconciliation protocol: fetch the file revision
marker, commit, and on failure retry exactly once with a freshly fetched
marker; the retry's failure is not caught locally, so it surfaces through
the top-level handler as a failure with the error's message
(`src/index.ts` lines 237–293 and 349–355). -/
def commitStep (readmePath prTitle prBranch content : String) (env : RemoteEnv)
    (acc : List Event) : Except (List Event) (List Event) :=
  let fileSha := env.getContentSha
  let acc1 := acc ++ [.getContent readmePath prBranch]
  match env.commitOk with
  | Except.ok _ =>
    Except.ok (acc1 ++ [.commitFile readmePath content prTitle prBranch fileSha,
      .info "Committed badge updates."])
  | Except.error m =>
    let acc2 := acc1 ++ [.commitFile readmePath content prTitle prBranch fileSha,
      .warning ("File content update failed, retrying once: " ++ m),
      .getContent readmePath prBranch]
    let retrySha := env.getContentShaRetry
    match env.commitRetryOk with
    | Except.ok _ =>
      Except.ok (acc2 ++ [.commitFile readmePath content prTitle prBranch retrySha,
        .info "Committed badge updates."])
    | Except.error m2 =>
      Except.error (acc2 ++
        [.commitFile readmePath content prTitle prBranch retrySha,
         .setFailed m2])

/-- The PR body built in `run`. -/
def buildPrBody (readmePath : String) (products : List Product)
    (badgeTypes : List BadgeType) : String :=
  let productList := strIntercalate "\n" (products.map (fun p =>
    "- " ++ p.product ++ (if optTruthy p.version then ":" ++ optVal p.version else "")))
  "## Version Health Badges Update\n\nThis PR updates version health badges in `" ++
    readmePath ++ "`.\n\n### Products tracked\n" ++ productList ++
    "\n\n### Badge types\n" ++ strIntercalate ", " (badgeTypes.map btStr) ++
    "\n\n---\nPowered by [ReleaseRun](https://releaserun.com) | [Badge Documentation](https://releaserun.com/badges/)"

/-- The hard-failure message of the PR step. -/
def prFailMsg (prBranch m : String) : String :=
  "Failed to create/update PR: " ++ m ++ ". Badge changes were committed to " ++
    prBranch ++ " but PR could not be created."

/-- Step 6 of the reconciliation protocol: list open PRs from the working
branch, update the first in place, otherwise create one; any failure is a
hard failure stating the commit already happened (`src/index.ts` lines
295–348). -/
def prStep (cfg : Config) (st : PreState) (defaultBranch : String)
    (env : RemoteEnv) (acc : List Event) : List Event :=
  let prBody := buildPrBody st.readmePath st.products st.badgeTypes
  let headSpec := cfg.owner ++ ":" ++ st.prBranch
  match env.listPulls with
  | Except.error m =>
    acc ++ [.pullsList headSpec "open", .setFailed (prFailMsg st.prBranch m)]
  | Except.ok prs =>
    let acc1 := acc ++ [.pullsList headSpec "open"]
    match prs with
    | pr :: _ =>
      match env.updatePullOk with
      | Except.ok _ =>
        acc1 ++ [.pullsUpdate pr.number st.prTitle prBody,
          .info ("Updated existing PR #" ++ toString pr.number),
          .setOutput "pr-number" (toString pr.number),
          .setOutput "pr-url" pr.htmlUrl]
      | Except.error m =>
        acc1 ++ [.pullsUpdate pr.number st.prTitle prBody,
          .setFailed (prFailMsg st.prBranch m)]
    | [] =>
      match env.createPull with
      | Except.ok pr =>
        acc1 ++ [.pullsCreate st.prTitle prBody st.prBranch defaultBranch,
          .info ("Created PR #" ++ toString pr.number ++ ": " ++ pr.htmlUrl),
          .setOutput "pr-number" (toString pr.number),
          .setOutput "pr-url" pr.htmlUrl]
      | Except.error m =>
        acc1 ++ [.pullsCreate st.prTitle prBody st.prBranch defaultBranch,
          .setFailed (prFailMsg st.prBranch m)]

/-- The remote part of `run`: default-branch resolution, default tip
lookup (whose failure propagates to the top-level handler), then the
branch, commit and PR steps in sequence. -/
def remotePhase (cfg : Config) (st : PreState) (env : RemoteEnv)
    (acc : List Event) : List Event :=
  let r := resolveDefaultBranch cfg env acc
  let defaultBranch := r.1
  let acc1 := r.2
  match env.getRefSha with
  | Except.error m => acc1 ++ [.getRef ("heads/" ++ defaultBranch), .setFailed m]
  | Except.ok sha =>
    let acc2 := acc1 ++ [.getRef ("heads/" ++ defaultBranch)]
    match branchStep st.prBranch defaultBranch sha env acc2 with
    | Except.error t => t
    | Except.ok acc3 =>
      match commitStep st.readmePath st.prTitle st.prBranch st.content env acc3 with
      | Except.error t => t
      | Except.ok acc4 => prStep cfg st defaultBranch env acc4

/-- Model of `src/index.ts` `run`: the whole reconciliation driver as the ordered
trace of its observable events. -/
def run (cfg : Config) (env : RemoteEnv) : List Event :=
  match preRemote cfg with
  | Except.error t => t
  | Except.ok (t, st) => remotePhase cfg st env t

/-- The spec's description of the spliced document: the text up to and
including the start sentinel, a newline, the markup, a newline, then the
text from the end sentinel onward. -/
def spliceSpecContent (readme badges : String) (i j : Nat) : String :=
  (⟨readme.data.take (i + startMarker.length)⟩ : String) ++ "\n" ++ badges ++
    "\n" ++ (⟨readme.data.drop j⟩ : String)

/-- Is the event a remote hosting-API call? -/
def isRemoteEvent : Event → Bool
  | .repoGet => true
  | .getRef _ => true
  | .createRef _ _ => true
  | .updateRef _ _ _ => true
  | .deleteRef _ => true
  | .getContent _ _ => true
  | .commitFile _ _ _ _ _ => true
  | .pullsList _ _ => true
  | .pullsUpdate _ _ _ => true
  | .pullsCreate _ _ _ _ => true
  | _ => false

/-- Is the event a remote mutation of file or pull-request state (a file
commit, or a PR create or update)? -/
def isRemoteMutation : Event → Bool
  | .commitFile _ _ _ _ _ => true
  | .pullsUpdate _ _ _ => true
  | .pullsCreate _ _ _ _ => true
  | _ => false

/-- Following the spec's words for the readme-path rule: the resolved
path is located inside the workspace root directory (the root itself, or
strictly below it at a path-component boundary). -/
def insideWorkspaceSpec (root p : String) : Bool :=
  p = root || strStartsWith p (root ++ "/")

/-- Fifty-one distinct valid `name:version` lines, for the C9 witness. -/
def input51 : String :=
  strIntercalate "\n" ((List.range 51).map (fun i => "q" ++ toString i ++ ":1"))

/-- A README whose markers wrap stale content, for concrete runs. -/
def readme0 : String :=
  "# T\n<!-- releaserun-badges-start -->\nold\n<!-- releaserun-badges-end -->\n"

/-- A fully valid concrete configuration for concrete runs. -/
def cfg0 : Config where
  productsInput := "python:3.12\nnode:20"
  badgeTypesInput := "health,eol"
  readmePathInput := ""
  linkToInput := ""
  prTitleInput := ""
  prBranchInput := ""
  styleInput := ""
  badgeServiceUrlInput := ""
  githubTokenInput := "tok"
  envGithubToken := Option.none
  envGithubWorkspace := some "/w"
  cwd := "/w"
  owner := "me"
  repo := "r"
  contextDefaultBranch := Option.none
  readFileResult := Except.ok readme0
  writeFileResult := Except.ok ()

/-- Is the event a failure report (`core.setFailed`)? -/
def isFailedEvent : Event → Bool
  | .setFailed _ => true
  | _ => false

/-- Does the event avoid a forced ref update?  (Only a `updateRef` with
`force = true` violates this.) -/
def noForcedUpdate : Event → Bool
  | .updateRef _ _ force => !force
  | _ => true

/-- The trace carried by either outcome of a trace-producing phase. -/
def traceOf (r : Except (List Event) (List Event)) : List Event :=
  match r with
  | .ok t => t
  | .error t => t

/-- The event kinds the branch step can append. -/
def branchEventOK : Event → Bool
  | .createRef _ _ => true
  | .updateRef _ _ force => !force
  | .deleteRef _ => true
  | .warning _ => true
  | .info _ => true
  | .setFailed _ => true
  | _ => false

/-- The event kinds the commit step can append. -/
def commitEventOK : Event → Bool
  | .getContent _ _ => true
  | .commitFile _ _ _ _ _ => true
  | .warning _ => true
  | .info _ => true
  | .setFailed _ => true
  | _ => false

/-- The event kinds the PR step can append. -/
def prEventOK : Event → Bool
  | .pullsList _ _ => true
  | .pullsUpdate _ _ _ => true
  | .pullsCreate _ _ _ _ => true
  | .info _ => true
  | .setOutput _ _ => true
  | .setFailed _ => true
  | _ => false

/-- The event kinds the whole remote phase can append: remote calls (with
`updateRef` never forced), log lines, outputs and failures. -/
def remoteDeltaOK : Event → Bool
  | .repoGet => true
  | .getRef _ => true
  | .createRef _ _ => true
  | .updateRef _ _ force => !force
  | .deleteRef _ => true
  | .getContent _ _ => true
  | .commitFile _ _ _ _ _ => true
  | .pullsList _ _ => true
  | .pullsUpdate _ _ _ => true
  | .pullsCreate _ _ _ _ => true
  | .warning _ => true
  | .info _ => true
  | .setOutput _ _ => true
  | .setFailed _ => true
  | _ => false

/-- A configuration whose readme-path resolves outside the workspace root
`/w` (to the sibling directory `/wx`) while still sharing the string
prefix `/w`. -/
def cfg6 : Config where
  productsInput := "python:3.12"
  badgeTypesInput := ""
  readmePathInput := "/wx/README.md"
  linkToInput := ""
  prTitleInput := ""
  prBranchInput := ""
  styleInput := ""
  badgeServiceUrlInput := ""
  githubTokenInput := "tok"
  envGithubToken := Option.none
  envGithubWorkspace := some "/w"
  cwd := "/w"
  owner := "me"
  repo := "r"
  contextDefaultBranch := Option.none
  readFileResult := Except.ok "no markers here"
  writeFileResult := Except.ok ()

/-- A remote oracle on which every call succeeds. -/
def env0 : RemoteEnv where
  repoInfo := Except.ok "main"
  getRefSha := Except.ok "sha1"
  createRefOk := Except.ok ()
  updateRefOk := Except.ok ()
  deleteRefOk := Except.ok ()
  createRefAgainOk := Except.ok ()
  getContentSha := some "fsha"
  commitOk := Except.ok ()
  getContentShaRetry := some "fsha2"
  commitRetryOk := Except.ok ()
  listPulls := Except.ok []
  updatePullOk := Except.ok ()
  createPull := Except.ok ⟨7, "https://github.com/me/r/pull/7"⟩

/-- A remote oracle where the working branch exists and has diverged, and
deleting it also fails (the C2 scenario). -/
def envDivergedStuck : RemoteEnv :=
  { env0 with
    createRefOk := Except.error "Reference already exists"
    updateRefOk := Except.error "Update is not a fast forward"
    deleteRefOk := Except.error "Reference does not exist" }

/-- A remote oracle where the working branch exists and has diverged, and
delete-plus-recreate succeeds (the C1 scenario). -/
def envDivergedRecreated : RemoteEnv :=
  { env0 with
    createRefOk := Except.error "Reference already exists"
    updateRefOk := Except.error "Update is not a fast forward" }

/-- A remote oracle where both file-content commits fail (the C3
scenario). -/
def envCommitFails : RemoteEnv :=
  { env0 with
    commitOk := Except.error "Conflict"
    commitRetryOk := Except.error "Conflict again" }

/-- The markup `cfg0` renders. -/
def markup0 : String :=
  generateAllBadges (parseProducts cfg0.productsInput).1
    (parseBadgeTypes "health,eol") "flat" LinkTo.badgePage Option.none

/-- Variant of `cfg0` with a README that already carries the current markup between
the markers (the C4 scenario). -/
def cfg4 : Config :=
  { cfg0 with
    readFileResult := Except.ok (updateReadmeContent readme0 markup0).content }

/-- The document content a `cfg0` run commits. -/
def content0 : String := (updateReadmeContent readme0 markup0).content

theorem firstIdxAux_some (pat : List Char) :
    ∀ (l : List Char) (k i : Nat), firstIdxAux pat l k = some i →
      k ≤ i ∧ pat.isPrefixOf (l.drop (i - k)) := by
  intro l
  induction l with
  | nil =>
    intro k i h
    unfold firstIdxAux at h
    split at h
    · simp only [Option.some.injEq] at h
      subst h
      simp only [Nat.sub_self, List.drop_nil]
      exact ⟨Nat.le_refl _, by assumption⟩
    · exact absurd h (by simp)
  | cons c rest ih =>
    intro k i h
    unfold firstIdxAux at h
    split at h
    · simp only [Option.some.injEq] at h
      subst h
      simp only [Nat.sub_self, List.drop_zero]
      exact ⟨Nat.le_refl _, by assumption⟩
    · obtain ⟨hk, hp⟩ := ih (k + 1) i h
      refine ⟨Nat.le_of_succ_le hk, ?_⟩
      have : i - k = (i - (k + 1)) + 1 := by omega
      rw [this, List.drop_succ_cons]
      exact hp

theorem firstIdx_some_prefix {s pat : String} {i : Nat}
    (h : firstIdx s pat = some i) : pat.data.isPrefixOf (s.data.drop i) := by
  have := firstIdxAux_some pat.data s.data 0 i h
  simpa using this.2

/-- The two sentinels can never begin at the same index: one would be a
prefix of the other. -/
theorem markers_not_same_idx {s : String} {i : Nat}
    (h1 : firstIdx s startMarker = some i) (h2 : firstIdx s endMarker = some i) :
    False := by
  have p1 := firstIdx_some_prefix h1
  have p2 := firstIdx_some_prefix h2
  rw [List.isPrefixOf_iff_prefix] at p1 p2
  have hle : endMarker.data.length ≤ startMarker.data.length := by decide
  have : endMarker.data <+: startMarker.data :=
    List.prefix_of_prefix_length_le p2 p1 hle
  exact absurd this (by decide)

/-- C7: if either sentinel is absent or the end sentinel occurs at or
before the start sentinel, `updateReadmeContent` reports
`markersFound = false`, `updated = false` and leaves the content
unchanged; if both are present in order, the content becomes the text up
to and including the start sentinel, a newline, the markup, a newline,
then the text from the end sentinel onward, with `updated = true` exactly
when this differs from the original. -/
theorem c7_splice_characterization (readme badges : String) :
    ((firstIdx readme startMarker = Option.none ∨
        firstIdx readme endMarker = Option.none ∨
        (∃ i j, firstIdx readme startMarker = some i ∧
          firstIdx readme endMarker = some j ∧ j ≤ i)) →
      updateReadmeContent readme badges = ⟨false, readme, false⟩) ∧
    (∀ i j, firstIdx readme startMarker = some i →
      firstIdx readme endMarker = some j → i < j →
      (updateReadmeContent readme badges).markersFound = true ∧
      (updateReadmeContent readme badges).content =
        spliceSpecContent readme badges i j ∧
      ((updateReadmeContent readme badges).updated = true ↔
        spliceSpecContent readme badges i j ≠ readme)) := by
  constructor
  · intro h
    rcases h with h | h | ⟨i, j, h1, h2, hji⟩
    · unfold updateReadmeContent
      rw [h]
    · unfold updateReadmeContent
      rw [h]
      rcases hx : firstIdx readme startMarker with _ | i <;> rfl
    · rcases Nat.lt_or_eq_of_le hji with hlt | heq
      · unfold updateReadmeContent
        rw [h1, h2]
        simp [hlt]
      · subst heq
        exact absurd (markers_not_same_idx h1 h2) not_false
  · intro i j h1 h2 hij
    unfold updateReadmeContent
    rw [h1, h2]
    have hn : ¬ (j < i) := Nat.not_lt.mpr (Nat.le_of_lt hij)
    simp only [if_neg hn]
    refine ⟨?_, ?_, ?_⟩
    · trivial
    · rfl
    · exact decide_eq_true_iff

/-- Witness for C7 at a concrete document: markers at indices 1 and 34,
splice succeeds, and the updated flag reflects the byte difference. -/
theorem c7_splice_characterization_witness :
    (updateReadmeContent
        "A<!-- releaserun-badges-start -->X<!-- releaserun-badges-end -->B"
        "M").markersFound = true ∧
    (updateReadmeContent
        "A<!-- releaserun-badges-start -->X<!-- releaserun-badges-end -->B"
        "M").content =
      spliceSpecContent
        "A<!-- releaserun-badges-start -->X<!-- releaserun-badges-end -->B"
        "M" 1 34 ∧
    ((updateReadmeContent
        "A<!-- releaserun-badges-start -->X<!-- releaserun-badges-end -->B"
        "M").updated = true ↔
      spliceSpecContent
        "A<!-- releaserun-badges-start -->X<!-- releaserun-badges-end -->B"
        "M" 1 34 ≠
        "A<!-- releaserun-badges-start -->X<!-- releaserun-badges-end -->B") :=
  (c7_splice_characterization
    "A<!-- releaserun-badges-start -->X<!-- releaserun-badges-end -->B" "M").2
    1 34 (by decide) (by decide) (by decide)

theorem strAppend_data (a b : String) : (a ++ b).data = a.data ++ b.data := rfl

theorem head_append_of_head {c : Char} (pre rest : String)
    (h : pre.data.head? = some c) : (pre ++ rest).data.head? = some c := by
  rw [strAppend_data]
  cases hd : pre.data with
  | nil => rw [hd] at h; exact absurd h (by simp)
  | cons x xs =>
    rw [hd] at h
    simp only [List.head?_cons, Option.some.injEq] at h
    simp [h]

/-- Every warning the per-line loop can emit starts with `'S'`
(`"Skipping invalid ..."`). -/
theorem lineResult_error_startsS {l : List Char} {e : String}
    (h : lineResult l = Except.error e) : e.data.head? = some 'S' := by
  unfold lineResult at h
  split at h
  · dsimp only at h
    split at h
    · exact absurd h (by simp)
    · simp only [Except.error.injEq] at h
      subst h
      exact head_append_of_head _ _ (head_append_of_head _ _ rfl)
  · dsimp only at h
    split at h
    · simp only [Except.error.injEq] at h
      subst h
      exact head_append_of_head _ _ (head_append_of_head _ _ rfl)
    · split at h
      · simp only [Except.error.injEq] at h
        subst h
        exact head_append_of_head _ _ (head_append_of_head _ _
          (head_append_of_head _ _ (head_append_of_head _ _ rfl)))
      · exact absurd h (by simp)

/-- The truncation warning (which starts with `'M'`) is never produced by
the per-line loop. -/
theorem truncation_not_in_processLines (ls : List (List Char)) :
    truncationWarning ∉ (processLines ls).2 := by
  induction ls with
  | nil => simp [processLines]
  | cons l rest ih =>
    unfold processLines
    cases hr : lineResult l with
    | ok p => simpa using ih
    | error w =>
      simp only
      intro hmem
      rcases List.mem_cons.mp hmem with heq | hmem2
      · have hS := lineResult_error_startsS hr
        rw [← heq] at hS
        exact absurd hS (by decide)
      · exact ih hmem2

theorem processLines_length_le (ls : List (List Char)) :
    (processLines ls).1.length ≤ ls.length := by
  induction ls with
  | nil => simp [processLines]
  | cons l rest ih =>
    unfold processLines
    cases hr : lineResult l with
    | ok p => simpa using ih
    | error w => simpa using Nat.le_succ_of_le ih

theorem processLines_all_ok_length (ls : List (List Char))
    (h : ∀ l ∈ ls, (lineResult l).isOk = true) :
    (processLines ls).1.length = ls.length := by
  induction ls with
  | nil => simp [processLines]
  | cons l rest ih =>
    unfold processLines
    cases hr : lineResult l with
    | ok p =>
      simp only [List.length_cons]
      rw [ih (fun x hx => h x (List.mem_cons_of_mem _ hx))]
    | error w =>
      have hok := h l (List.mem_cons_self ..)
      have hfalse : (Except.error w : Except String Product).isOk = false := rfl
      rw [hr, hfalse] at hok
      exact absurd hok (by decide)

/-- C9: with more than 50 non-blank lines, `parseProducts` processes only
the first 50 (each still validated individually by the per-line loop),
emits the truncation warning exactly once, retains at most 50 products,
and retains exactly 50 when all 50 processed lines are valid. -/
theorem c9_product_cap (input : String)
    (h : (nonBlankLines input).length > maxProducts) :
    parseProducts input =
      ((processLines ((nonBlankLines input).take maxProducts)).1,
        truncationWarning ::
          (processLines ((nonBlankLines input).take maxProducts)).2) ∧
    (parseProducts input).2.count truncationWarning = 1 ∧
    (parseProducts input).1.length ≤ maxProducts ∧
    ((∀ l ∈ (nonBlankLines input).take maxProducts,
        (lineResult l).isOk = true) →
      (parseProducts input).1.length = maxProducts) := by
  have heq : parseProducts input =
      ((processLines ((nonBlankLines input).take maxProducts)).1,
        truncationWarning ::
          (processLines ((nonBlankLines input).take maxProducts)).2) := by
    unfold parseProducts
    simp only [if_pos h]
    rfl
  refine ⟨heq, ?_, ?_, ?_⟩
  · rw [heq]
    simp only [List.count_cons_self]
    rw [List.count_eq_zero.mpr (truncation_not_in_processLines _)]
  · rw [heq]
    calc (processLines ((nonBlankLines input).take maxProducts)).1.length
        ≤ ((nonBlankLines input).take maxProducts).length :=
          processLines_length_le _
      _ ≤ maxProducts := List.length_take_le maxProducts _
  · intro hall
    rw [heq]
    simp only
    rw [processLines_all_ok_length _ hall]
    rw [List.length_take]
    omega

/-- Witness for C9: 51 distinct valid `name:version` lines yield exactly
50 retained products and exactly one truncation warning. -/
theorem c9_product_cap_witness :
    (nonBlankLines input51).length > maxProducts ∧
    (parseProducts input51).2.count truncationWarning = 1 ∧
    (parseProducts input51).1.length = maxProducts :=
  ⟨by decide, (c9_product_cap input51 (by decide)).2.1,
    (c9_product_cap input51 (by decide)).2.2.2 (by decide)⟩

/-- Characters allowed in a valid product name are never newline, colon or
trim-whitespace. -/
theorem isProdTail_ranges {c : Char} (h : isProdTail c = true) :
    c ≠ '\n' ∧ c ≠ ':' ∧ isJsSpace c = false := by
  simp only [isProdTail, isLowerAlphaNum, Bool.or_eq_true, Bool.and_eq_true,
    decide_eq_true_eq] at h
  refine ⟨?_, ?_, ?_⟩
  · rintro rfl; revert h; decide
  · rintro rfl; revert h; decide
  · rcases h with (((h | h) | h) | h) | h
    · unfold isJsSpace jsWhitespaceCodes
      rw [decide_eq_false_iff_not]
      intro hmem
      simp only [List.mem_cons, List.not_mem_nil, or_false] at hmem
      omega
    · unfold isJsSpace jsWhitespaceCodes
      rw [decide_eq_false_iff_not]
      intro hmem
      simp only [List.mem_cons, List.not_mem_nil, or_false] at hmem
      omega
    · subst h; decide
    · subst h; decide
    · subst h; decide

theorem validateProduct_chars {name : String} (h : validateProduct name = true) :
    ∀ c ∈ name.data, isProdTail c = true := by
  unfold validateProduct at h
  cases hd : name.data with
  | nil => rw [hd] at h; exact absurd h (by simp)
  | cons c0 rest =>
    rw [hd] at h
    simp only [Bool.and_eq_true, List.all_eq_true] at h
    intro c hc
    rcases List.mem_cons.mp hc with rfl | hc2
    · simp [isProdTail, h.1]
    · exact h.2 c hc2

theorem validateProduct_ne_empty {name : String} (h : validateProduct name = true) :
    name.data ≠ [] := by
  intro hd
  unfold validateProduct at h
  rw [hd] at h
  exact absurd h (by simp)

theorem chSplit_no_sep {sep : Char} :
    ∀ {l : List Char}, (∀ c ∈ l, c ≠ sep) → chSplit sep l = [l] := by
  intro l
  induction l with
  | nil => intro _; rfl
  | cons c rest ih =>
    intro h
    unfold chSplit
    rw [if_neg (h c (List.mem_cons_self ..))]
    rw [ih (fun x hx => h x (List.mem_cons_of_mem _ hx))]

theorem trimList_eq_self {l : List Char}
    (h1 : ∀ c, l.head? = some c → isJsSpace c = false)
    (h2 : ∀ c, l.getLast? = some c → isJsSpace c = false) : trimList l = l := by
  unfold trimList
  have e1 : l.dropWhile isJsSpace = l := by
    cases l with
    | nil => rfl
    | cons c cs =>
      rw [List.dropWhile_cons, if_neg]
      simp [h1 c rfl]
  rw [e1]
  have e2 : l.reverse.dropWhile isJsSpace = l.reverse := by
    cases hr : l.reverse with
    | nil => rfl
    | cons c cs =>
      rw [List.dropWhile_cons, if_neg]
      have hg : l.getLast? = some c := by
        rw [← List.head?_reverse, hr]; rfl
      simp [h2 c hg]
  rw [e2, List.reverse_reverse]

theorem splitColon_no_colon :
    ∀ {n : List Char}, (∀ c ∈ n, c ≠ ':') → splitColon n = Option.none := by
  intro n
  induction n with
  | nil => intro _; rfl
  | cons c cs ih =>
    intro h
    unfold splitColon
    rw [if_neg (h c (List.mem_cons_self ..))]
    rw [ih (fun x hx => h x (List.mem_cons_of_mem _ hx))]
    rfl

theorem splitColon_append {n r : List Char} (h : ∀ c ∈ n, c ≠ ':') :
    splitColon (n ++ ':' :: r) = some (n, r) := by
  induction n with
  | nil => rfl
  | cons c cs ih =>
    rw [List.cons_append]
    unfold splitColon
    rw [if_neg (h c (List.mem_cons_self ..))]
    rw [ih (fun x hx => h x (List.mem_cons_of_mem _ hx))]
    rfl

/-- Evaluation of `parseProducts` on a single line with no newline and no surrounding
whitespace reduces to the per-line loop body. -/
theorem parseProducts_single_line {l : List Char}
    (hnl : ∀ c ∈ l, c ≠ '\n')
    (hh : ∀ c, l.head? = some c → isJsSpace c = false)
    (hlast : ∀ c, l.getLast? = some c → isJsSpace c = false)
    (hne : l ≠ []) :
    parseProducts ⟨l⟩ =
      (match lineResult l with
       | Except.ok p => ([p], [])
       | Except.error w => ([], [w])) := by
  have hsplit : chSplit '\n' l = [l] := chSplit_no_sep hnl
  have htrim : trimList l = l := trimList_eq_self hh hlast
  have hlines : nonBlankLines ⟨l⟩ = [l] := by
    unfold nonBlankLines
    rw [show (⟨l⟩ : String).data = l from rfl, hsplit]
    simp [htrim, hne]
  unfold parseProducts
  rw [hlines]
  cases hr : lineResult l with
  | ok p => simp [maxProducts, processLines, hr]
  | error w => simp [maxProducts, processLines, hr]

/-- C10: a valid product name followed by a bare colon (empty version) is
accepted without warnings and stored with no version at all — identical
to the version-less line. -/
theorem c10_empty_version (name : String) (h : validateProduct name = true) :
    parseProducts (name ++ ":") = ([⟨name, Option.none⟩], []) ∧
    parseProducts (name ++ ":") = parseProducts name := by
  have hchars := validateProduct_chars h
  have hne := validateProduct_ne_empty h
  have hdata : (name ++ ":").data = name.data ++ [':'] := rfl
  have hcolon : ∀ c ∈ name.data, c ≠ ':' := fun c hc =>
    (isProdTail_ranges (hchars c hc)).2.1
  -- the colon-terminated line
  have hline1 : lineResult (name.data ++ [':']) = Except.ok ⟨name, Option.none⟩ := by
    unfold lineResult
    rw [show name.data ++ [':'] = name.data ++ ':' :: [] from rfl,
      splitColon_append hcolon]
    dsimp only
    rw [show (⟨name.data⟩ : String) = name from rfl]
    simp [h]
  have hone : parseProducts ⟨name.data ++ [':']⟩ = ([⟨name, Option.none⟩], []) := by
    rw [parseProducts_single_line
      (fun c hc => by
        rcases List.mem_append.mp hc with hc1 | hc1
        · exact (isProdTail_ranges (hchars c hc1)).1
        · rw [List.mem_singleton.mp hc1]; decide)
      (fun c hc => by
        cases hd : name.data with
        | nil => exact absurd hd hne
        | cons a rest =>
          rw [hd, List.cons_append, List.head?_cons, Option.some.injEq] at hc
          rw [← hc]
          exact (isProdTail_ranges (hchars a (by rw [hd]; exact List.mem_cons_self ..))).2.2)
      (fun c hc => by
        rw [List.getLast?_concat, Option.some.injEq] at hc
        rw [← hc]; decide)
      (by simp)]
    rw [hline1]
  -- the bare line
  have hline2 : lineResult name.data = Except.ok ⟨name, Option.none⟩ := by
    unfold lineResult
    rw [splitColon_no_colon hcolon]
    dsimp only
    rw [show (⟨name.data⟩ : String) = name from rfl]
    simp [h]
  have htwo : parseProducts ⟨name.data⟩ = ([⟨name, Option.none⟩], []) := by
    rw [parseProducts_single_line
      (fun c hc => (isProdTail_ranges (hchars c hc)).1)
      (fun c hc => by
        cases hd : name.data with
        | nil => exact absurd hd hne
        | cons a rest =>
          rw [hd, List.head?_cons, Option.some.injEq] at hc
          rw [← hc]
          exact (isProdTail_ranges (hchars a (by rw [hd]; exact List.mem_cons_self ..))).2.2)
      (fun c hc => (isProdTail_ranges (hchars c (List.mem_of_mem_getLast? hc))).2.2)
      hne]
    rw [hline2]
  exact ⟨hone, hone.trans htwo.symm⟩

/-- Witness for C10 at `"python:"`: accepted with no warnings and no
version, same as `"python"`. -/
theorem c10_empty_version_witness :
    validateProduct "python" = true ∧
    parseProducts ("python" ++ ":") = ([⟨"python", Option.none⟩], []) ∧
    parseProducts ("python" ++ ":") = parseProducts "python" :=
  ⟨by decide, (c10_empty_version "python" (by decide)).1,
    (c10_empty_version "python" (by decide)).2⟩

theorem strExt {a b : String} (h : a.data = b.data) : a = b := by
  cases a; cases b; exact congrArg String.mk h

/-- C8: the image URL is `{base}/{category}/{product}[/{version}].svg`,
with `?style={style}` appended exactly when the style is not `"flat"`;
badge units of one product are space-joined on one line and product lines
newline-joined in product order. -/
theorem c8_badge_rendering (bt : BadgeType) (product : String)
    (version : Option String) (style : String) (linkTo : LinkTo)
    (baseUrl : Option String) (hstyle : style ∈ styleList)
    (hv : version ≠ some "") :
    getBadgeUrl bt product version (some style) baseUrl =
      jsOr (optVal baseUrl) defaultBadgeBase ++ "/" ++ btStr bt ++ "/" ++
        product ++
        (match version with
         | some v => "/" ++ v
         | Option.none => "") ++ ".svg" ++
        (if style ≠ "flat" then "?style=" ++ style else "") ∧
    ∀ (products : List Product) (badgeTypes : List BadgeType),
      generateAllBadges products badgeTypes style linkTo baseUrl =
        strIntercalate "\n" (products.map (fun p =>
          strIntercalate " " (badgeTypes.map (fun t =>
            "[![" ++ getBadgeLabel t p.product p.version ++ "](" ++
              getBadgeUrl t p.product p.version (some style) baseUrl ++
              ")](" ++
              getLinkUrl linkTo p.product
                (getBadgeUrl t p.product p.version (some style) baseUrl) ++
              ")")))) := by
  constructor
  · fin_cases hstyle <;> rcases version with _ | v <;>
      [skip; (replace hv : v ≠ "" := fun he => hv (by rw [he]); skip);
       skip; (replace hv : v ≠ "" := fun he => hv (by rw [he]); skip);
       skip; (replace hv : v ≠ "" := fun he => hv (by rw [he]); skip);
       skip; (replace hv : v ≠ "" := fun he => hv (by rw [he]); skip)] <;>
    · unfold getBadgeUrl
      apply strExt
      simp [optTruthy, optVal, strAppend_data, List.append_assoc, hv,
        encodeURIComponent, isUriUnreserved, isAlphaNumC, isLowerAlphaNum]
  · intro products badgeTypes
    unfold generateAllBadges generateBadgeMarkdown
    rfl

/-- Witness for C8: `python` 3.12 health badge with a non-default style
gets the `?style=` suffix at the documented position. -/
theorem c8_badge_rendering_witness :
    getBadgeUrl BadgeType.health "python" (some "3.12")
        (some "for-the-badge") Option.none =
      jsOr (optVal Option.none) defaultBadgeBase ++ "/" ++
        btStr BadgeType.health ++ "/" ++ "python" ++
        (match (some "3.12" : Option String) with
         | some v => "/" ++ v
         | Option.none => "") ++ ".svg" ++
        (if "for-the-badge" ≠ "flat" then "?style=" ++ "for-the-badge" else "") :=
  (c8_badge_rendering BadgeType.health "python" (some "3.12") "for-the-badge"
    LinkTo.badgePage Option.none (by decide) (by decide)).1

/-- With a provided, invalid badge-service URL the pre-remote phase always
aborts with a single configuration failure (either the URL check itself or
one of the validations ordered before it). -/
theorem preRemote_invalid_url {cfg : Config}
    (h1 : cfg.badgeServiceUrlInput ≠ "")
    (h2 : isValidBadgeServiceUrl cfg.badgeServiceUrlInput = false) :
    ∃ m, preRemote cfg = Except.error [Event.setFailed m] := by
  have hcfg : ∃ m, configPhase cfg = Except.error [Event.setFailed m] := by
    have hbs : badgeServiceBaseUrlOf cfg = some cfg.badgeServiceUrlInput := by
      unfold badgeServiceBaseUrlOf
      exact if_neg h1
    unfold configPhase
    rw [hbs]
    simp only [optTruthy, optVal, Option.getD, h2, Bool.not_false,
      Bool.and_true, decide_eq_true h1, if_true]
    split
    · exact ⟨_, rfl⟩
    · split
      · exact ⟨_, rfl⟩
      · split
        · exact ⟨_, rfl⟩
        · exact ⟨_, rfl⟩
  obtain ⟨m, hm⟩ := hcfg
  refine ⟨m, ?_⟩
  unfold preRemote
  rw [hm]

/-- C5: `isValidBadgeServiceUrl` accepts exactly the parsed HTTPS URLs of
`releaserun.com` or a `.releaserun.com` subdomain whose host is not an
IPv4 literal, a bracketed literal, a loopback literal or `localhost`;
unparseable URLs are rejected; the boundary examples behave as specified;
and a provided invalid URL makes the run abort with a lone configuration
failure, before reading the document and before any remote call. -/
theorem c5_badge_service_url :
    (∀ s u, parseUrl s = some u →
      (isValidBadgeServiceUrl s = true ↔
        (u.protocol = "https:" ∧
         (u.hostname = "releaserun.com" ∨
           strEndsWith u.hostname ".releaserun.com" = true) ∧
         isIPv4Literal u.hostname = false ∧
         strStartsWith u.hostname "[" = false ∧
         u.hostname ≠ "::1" ∧ u.hostname ≠ "localhost" ∧
         u.hostname ≠ "127.0.0.1"))) ∧
    (∀ s, parseUrl s = Option.none → isValidBadgeServiceUrl s = false) ∧
    (isValidBadgeServiceUrl "https://releaserun.com" = true ∧
     isValidBadgeServiceUrl "https://sub.releaserun.com" = true ∧
     isValidBadgeServiceUrl "https://releaserun.com.evil.com" = false ∧
     isValidBadgeServiceUrl "https://192.168.1.1" = false ∧
     isValidBadgeServiceUrl "https://localhost" = false ∧
     isValidBadgeServiceUrl "http://releaserun.com" = false) ∧
    (∀ cfg env, cfg.badgeServiceUrlInput ≠ "" →
      isValidBadgeServiceUrl cfg.badgeServiceUrlInput = false →
      ∃ m, run cfg env = [Event.setFailed m]) := by
  refine ⟨?_, ?_, by decide, ?_⟩
  · intro s u hp
    unfold isValidBadgeServiceUrl
    rw [hp]
    dsimp only
    split_ifs with hA hB hC hD
    · simp only [false_iff]
      rintro ⟨h1, -⟩
      exact hA h1
    · simp only [false_iff]
      rintro ⟨-, -, h3, h4, h5, -⟩
      simp [h3, h4, h5] at hB
    · simp only [false_iff]
      rintro ⟨-, -, -, -, -, h6, h7⟩
      simp [h6, h7] at hC
    · simp only [false_iff]
      rintro ⟨-, hdom, -⟩
      rcases hdom with hd | hd <;> simp [hd] at hD
    · simp only [true_iff]
      push_neg at hA
      simp only [Bool.or_eq_true, decide_eq_true_eq, not_or,
        Bool.not_eq_true] at hB hC
      refine ⟨hA, ?_, hB.1.1, hB.1.2, hB.2, hC.1, hC.2⟩
      by_cases he : u.hostname = "releaserun.com"
      · exact Or.inl he
      · right
        by_cases hf : strEndsWith u.hostname ".releaserun.com" = true
        · exact hf
        · exfalso
          apply hD
          simp [he, Bool.eq_false_iff.mpr hf]
  · intro s hp
    unfold isValidBadgeServiceUrl
    rw [hp]
  · intro cfg env h1 h2
    obtain ⟨m, hm⟩ := preRemote_invalid_url h1 h2
    refine ⟨m, ?_⟩
    unfold run
    rw [hm]

/-- Witness for C5: the characterization applied to an accepted subdomain
URL, and the driver abort at a concrete bad-URL configuration. -/
theorem c5_badge_service_url_witness :
    (isValidBadgeServiceUrl "https://img.releaserun.com" = true ↔
      (("https:" : String) = "https:" ∧
       (("img.releaserun.com" : String) = "releaserun.com" ∨
         strEndsWith "img.releaserun.com" ".releaserun.com" = true) ∧
       isIPv4Literal "img.releaserun.com" = false ∧
       strStartsWith "img.releaserun.com" "[" = false ∧
       ("img.releaserun.com" : String) ≠ "::1" ∧
       ("img.releaserun.com" : String) ≠ "localhost" ∧
       ("img.releaserun.com" : String) ≠ "127.0.0.1")) ∧
    (∃ m, run { cfg0 with badgeServiceUrlInput := "http://releaserun.com" } env0 =
      [Event.setFailed m]) :=
  ⟨c5_badge_service_url.1 "https://img.releaserun.com"
      ⟨"https:", "img.releaserun.com"⟩ (by decide),
   c5_badge_service_url.2.2.2 _ env0 (by decide) (by decide)⟩

/-- C6: counter-evidence for the readme-path rule.  With workspace root
`/w`, the input `/wx/README.md` resolves to `/wx/README.md`, which is not
located inside `/w` — yet the run does not abort: the prefix check
`fullPath.startsWith(resolve(workspace))` accepts it, the document is
read, and no failure is reported. -/
theorem c6_path_escape :
    resolvePath "/w" "/wx/README.md" = "/wx/README.md" ∧
    insideWorkspaceSpec (resolvePath "/w" "/w")
      (resolvePath "/w" "/wx/README.md") = false ∧
    Event.readFile "/wx/README.md" ∈ run cfg6 env0 ∧
    (run cfg6 env0).all (fun e => !isFailedEvent e) = true := by decide

theorem configPhase_error_shape {cfg : Config} {t : List Event}
    (h : configPhase cfg = Except.error t) : ∃ m, t = [Event.setFailed m] := by
  unfold configPhase at h
  split at h
  · exact ⟨_, ((Except.error.injEq ..).mp h).symm⟩
  · split at h
    · exact ⟨_, ((Except.error.injEq ..).mp h).symm⟩
    · split at h
      · exact ⟨_, ((Except.error.injEq ..).mp h).symm⟩
      · split at h
        · exact ⟨_, ((Except.error.injEq ..).mp h).symm⟩
        · split at h
          · exact ⟨_, ((Except.error.injEq ..).mp h).symm⟩
          · exact absurd h (by simp)

theorem warnings_all_nonremote (ws : List String) :
    (ws.map Event.warning).all (fun e => !isRemoteEvent e) = true := by
  induction ws with
  | nil => rfl
  | cons w rest ih =>
    rw [List.map_cons, List.all_cons, ih]
    rfl

theorem preOutputs_nonremote (cfg : Config) (v : ValidConfig) :
    (preOutputs cfg v).all (fun e => !isRemoteEvent e) = true := by
  unfold preOutputs
  rw [List.all_append, warnings_all_nonremote]
  rfl

theorem contentPhase_error_nonremote {cfg : Config} {v : ValidConfig}
    {t : List Event} (h : contentPhase cfg v = Except.error t) :
    t.all (fun e => !isRemoteEvent e) = true := by
  unfold contentPhase at h
  split at h
  · replace h := ((Except.error.injEq ..).mp h).symm
    subst h
    rw [List.all_append, warnings_all_nonremote]
    rfl
  · split at h
    · replace h := ((Except.error.injEq ..).mp h).symm
      subst h
      rw [List.all_append, preOutputs_nonremote]
      rfl
    · split at h
      · replace h := ((Except.error.injEq ..).mp h).symm
        subst h
        rw [List.all_append, preOutputs_nonremote]
        rfl
      · split at h
        · replace h := ((Except.error.injEq ..).mp h).symm
          subst h
          rw [List.all_append, preOutputs_nonremote]
          rfl
        · split at h
          · replace h := ((Except.error.injEq ..).mp h).symm
            subst h
            rw [List.all_append, preOutputs_nonremote]
            rfl
          · split at h
            · replace h := ((Except.error.injEq ..).mp h).symm
              subst h
              rw [List.all_append, preOutputs_nonremote]
              rfl
            · exact absurd h (by simp)

theorem contentPhase_ok_shape {cfg : Config} {v : ValidConfig}
    {t : List Event} {st : PreState}
    (h : contentPhase cfg v = Except.ok (t, st)) :
    t.all (fun e => !isRemoteEvent e) = true ∧
    Event.setOutput "badges-markdown" (renderedMarkup cfg v) ∈ t ∧
    (∃ n, Event.setOutput "badges-count" n ∈ t) ∧
    Event.setOutput "pr-branch" v.prBranch ∈ t := by
  unfold contentPhase at h
  split at h
  · exact absurd h (by simp)
  · split at h
    · exact absurd h (by simp)
    · split at h
      · exact absurd h (by simp)
      · split at h
        · exact absurd h (by simp)
        · split at h
          · exact absurd h (by simp)
          · split at h
            · exact absurd h (by simp)
            · replace h := ((Except.ok.injEq ..).mp h).symm
              rw [Prod.mk.injEq] at h
              obtain ⟨ht, hst⟩ := h
              subst ht
              refine ⟨?_, ?_,
                ⟨toString ((productsOf cfg).length * (badgeTypesOf v).length), ?_⟩, ?_⟩
              · rw [List.all_append, preOutputs_nonremote]
                rfl
              · simp [preOutputs]
              · simp [preOutputs]
              · simp [preOutputs]

theorem preRemote_error_nonremote {cfg : Config} {t : List Event}
    (h : preRemote cfg = Except.error t) :
    t.all (fun e => !isRemoteEvent e) = true := by
  unfold preRemote at h
  split at h
  · rename_i tc hc
    replace h := ((Except.error.injEq ..).mp h).symm
    subst h
    obtain ⟨m, hm⟩ := configPhase_error_shape hc
    subst hm
    rfl
  · exact contentPhase_error_nonremote h

theorem resolveDefaultBranch_delta (cfg : Config) (env : RemoteEnv)
    (acc : List Event) :
    ∃ d, (resolveDefaultBranch cfg env acc).2 = acc ++ d ∧
      d.all (fun e => match e with
        | .repoGet => true
        | .warning _ => true
        | _ => false) = true := by
  unfold resolveDefaultBranch
  rcases env.repoInfo with m | b
  · exact ⟨_, rfl, rfl⟩
  · exact ⟨_, rfl, rfl⟩

theorem append2 {α : Type} (a b c : List α) :
    (a ++ b) ++ c = a ++ (b ++ c) := List.append_assoc a b c

theorem append3 {α : Type} (a b c d : List α) :
    ((a ++ b) ++ c) ++ d = a ++ (b ++ (c ++ d)) := by
  simp only [List.append_assoc]

theorem branchStep_delta (prBranch defaultBranch sha : String)
    (env : RemoteEnv) (acc : List Event) :
    ∃ d, traceOf (branchStep prBranch defaultBranch sha env acc) = acc ++ d ∧
      d.all branchEventOK = true := by
  unfold branchStep
  rcases env.createRefOk with m1 | u1
  · rcases env.updateRefOk with m2 | u2
    · rcases env.deleteRefOk with m3 | u3
      · exact ⟨_, append3 .., rfl⟩
      · rcases env.createRefAgainOk with m4 | u4
        · exact ⟨_, append3 .., rfl⟩
        · exact ⟨_, append3 .., rfl⟩
    · exact ⟨_, append2 .., rfl⟩
  · exact ⟨_, rfl, rfl⟩

theorem commitStep_delta (readmePath prTitle prBranch content : String)
    (env : RemoteEnv) (acc : List Event) :
    ∃ d, traceOf (commitStep readmePath prTitle prBranch content env acc) =
        acc ++ d ∧
      d.all commitEventOK = true := by
  unfold commitStep
  rcases env.commitOk with m1 | u1
  · rcases env.commitRetryOk with m2 | u2
    · exact ⟨_, append3 .., rfl⟩
    · exact ⟨_, append3 .., rfl⟩
  · exact ⟨_, append2 .., rfl⟩

theorem prStep_delta (cfg : Config) (st : PreState) (defaultBranch : String)
    (env : RemoteEnv) (acc : List Event) :
    ∃ d, prStep cfg st defaultBranch env acc = acc ++ d ∧
      d.all prEventOK = true := by
  unfold prStep
  rcases env.listPulls with m | prs
  · exact ⟨_, rfl, rfl⟩
  · rcases prs with _ | ⟨pr, rest⟩
    · rcases env.createPull with m | pr2
      · exact ⟨_, append2 .., rfl⟩
      · exact ⟨_, append2 .., rfl⟩
    · rcases env.updatePullOk with m | u
      · exact ⟨_, append2 .., rfl⟩
      · exact ⟨_, append2 .., rfl⟩

theorem all_imp_events {p q : Event → Bool} (hpq : ∀ e, p e = true → q e = true)
    {l : List Event} (hl : l.all p = true) : l.all q = true := by
  rw [List.all_eq_true] at hl ⊢
  exact fun e he => hpq e (hl e he)

theorem all_append_combine {p : Event → Bool} {d1 d2 : List Event}
    (h1 : d1.all p = true) (h2 : d2.all p = true) :
    (d1 ++ d2).all p = true := by
  rw [List.all_append, h1, h2]
  rfl

theorem resolveEventOK_remote {e : Event}
    (h : (match e with
      | .repoGet => true
      | .warning _ => true
      | _ => false) = true) : remoteDeltaOK e = true := by
  cases e <;> first | rfl | exact absurd h (by simp)

theorem branchEventOK_remote {e : Event} (h : branchEventOK e = true) :
    remoteDeltaOK e = true := by
  cases e <;> first | rfl | exact h

theorem commitEventOK_remote {e : Event} (h : commitEventOK e = true) :
    remoteDeltaOK e = true := by
  cases e <;> first | rfl | exact absurd h (by simp [commitEventOK])

theorem prEventOK_remote {e : Event} (h : prEventOK e = true) :
    remoteDeltaOK e = true := by
  cases e <;> first | rfl | exact absurd h (by simp [prEventOK])

theorem remotePhase_delta (cfg : Config) (st : PreState) (env : RemoteEnv)
    (acc : List Event) :
    ∃ d, remotePhase cfg st env acc = acc ++ d ∧
      d.all remoteDeltaOK = true := by
  unfold remotePhase
  dsimp only
  obtain ⟨d0, h0, ha0⟩ := resolveDefaultBranch_delta cfg env acc
  have ha0r : d0.all remoteDeltaOK = true :=
    all_imp_events (fun _ => resolveEventOK_remote) ha0
  rw [h0]
  rcases href : env.getRefSha with m | sha
  · refine ⟨d0 ++ [.getRef ("heads/" ++ (resolveDefaultBranch cfg env acc).1),
      .setFailed m], append2 .., ?_⟩
    exact all_append_combine ha0r rfl
  · dsimp only
    obtain ⟨d1, h1, ha1⟩ :=
      branchStep_delta st.prBranch (resolveDefaultBranch cfg env acc).1 sha env
        ((acc ++ d0) ++ [.getRef ("heads/" ++ (resolveDefaultBranch cfg env acc).1)])
    have ha1r : d1.all remoteDeltaOK = true :=
      all_imp_events (fun _ => branchEventOK_remote) ha1
    rcases hb : branchStep st.prBranch (resolveDefaultBranch cfg env acc).1 sha
        env ((acc ++ d0) ++
          [.getRef ("heads/" ++ (resolveDefaultBranch cfg env acc).1)]) with tb | tb
    · rw [hb] at h1 ⊢
      simp only [traceOf] at h1
      dsimp only
      refine ⟨d0 ++ ([.getRef ("heads/" ++ (resolveDefaultBranch cfg env acc).1)] ++ d1),
        ?_, ?_⟩
      · rw [h1]
        simp [List.append_assoc]
      · exact all_append_combine ha0r (all_append_combine rfl ha1r)
    · rw [hb] at h1 ⊢
      simp only [traceOf] at h1
      dsimp only
      obtain ⟨d2, h2, ha2⟩ :=
        commitStep_delta st.readmePath st.prTitle st.prBranch st.content env tb
      have ha2r : d2.all remoteDeltaOK = true :=
        all_imp_events (fun _ => commitEventOK_remote) ha2
      rcases hcm : commitStep st.readmePath st.prTitle st.prBranch st.content
          env tb with tc | tc
      · rw [hcm] at h2
        simp only [traceOf] at h2
        dsimp only
        refine ⟨d0 ++ ([.getRef ("heads/" ++ (resolveDefaultBranch cfg env acc).1)] ++
          (d1 ++ d2)), ?_, ?_⟩
        · rw [h2, h1]
          simp [List.append_assoc]
        · exact all_append_combine ha0r
            (all_append_combine rfl (all_append_combine ha1r ha2r))
      · rw [hcm] at h2
        simp only [traceOf] at h2
        dsimp only
        obtain ⟨d3, h3, ha3⟩ :=
          prStep_delta cfg st (resolveDefaultBranch cfg env acc).1 env tc
        have ha3r : d3.all remoteDeltaOK = true :=
          all_imp_events (fun _ => prEventOK_remote) ha3
        refine ⟨d0 ++ ([.getRef ("heads/" ++ (resolveDefaultBranch cfg env acc).1)] ++
          (d1 ++ (d2 ++ d3))), ?_, ?_⟩
        · rw [h3, h2, h1]
          simp [List.append_assoc]
        · exact all_append_combine ha0r (all_append_combine rfl
            (all_append_combine ha1r (all_append_combine ha2r ha3r)))

theorem preRemote_ok_shape {cfg : Config} {t : List Event} {st : PreState}
    (h : preRemote cfg = Except.ok (t, st)) :
    ∃ v, configPhase cfg = Except.ok v ∧ contentPhase cfg v = Except.ok (t, st) := by
  unfold preRemote at h
  split at h
  · exact absurd h (by simp)
  · rename_i v hv
    exact ⟨v, hv, h⟩

theorem bnot_remote_noForced {e : Event} (h : (!isRemoteEvent e) = true) :
    noForcedUpdate e = true := by
  cases e <;> first | rfl | exact absurd h (by simp [isRemoteEvent])

theorem bnot_remote_nomut {e : Event} (h : (!isRemoteEvent e) = true) :
    (!isRemoteMutation e) = true := by
  cases e <;> first | rfl | exact absurd h (by simp [isRemoteEvent])

theorem remoteDeltaOK_noForced {e : Event} (h : remoteDeltaOK e = true) :
    noForcedUpdate e = true := by
  cases e <;> first | rfl | exact h

theorem branchEventOK_nomut {e : Event} (h : branchEventOK e = true) :
    (!isRemoteMutation e) = true := by
  cases e <;> first | rfl | exact absurd h (by simp [branchEventOK])

theorem resolveEventOK_nomut {e : Event}
    (h : (match e with
      | .repoGet => true
      | .warning _ => true
      | _ => false) = true) : (!isRemoteMutation e) = true := by
  cases e <;> first | rfl | exact absurd h (by simp)

/-- C1: no remote ref operation in any run ever carries `force = true`,
and the branch step's order is: failed `create-ref`, then a non-force
`update-ref`; if that fails too, `delete-ref` followed by a fresh
`create-ref` at the tip — never a force-push. -/
theorem c1_no_forced_ref_update (cfg : Config) (env : RemoteEnv) :
    (run cfg env).all noForcedUpdate = true ∧
    (∀ prBranch defaultBranch sha acc m,
      env.createRefOk = Except.error m →
      env.updateRefOk = Except.ok () →
      branchStep prBranch defaultBranch sha env acc = Except.ok (acc ++
        [.createRef ("refs/heads/" ++ prBranch) sha,
         .updateRef ("heads/" ++ prBranch) sha false,
         .info ("Updated branch " ++ prBranch)])) ∧
    (∀ prBranch defaultBranch sha acc m mu,
      env.createRefOk = Except.error m →
      env.updateRefOk = Except.error mu →
      env.deleteRefOk = Except.ok () →
      env.createRefAgainOk = Except.ok () →
      branchStep prBranch defaultBranch sha env acc = Except.ok (acc ++
        [.createRef ("refs/heads/" ++ prBranch) sha,
         .updateRef ("heads/" ++ prBranch) sha false,
         .warning ("Branch " ++ prBranch ++ " has diverged from " ++
           defaultBranch ++ ": " ++ mu),
         .warning "Deleting and recreating branch to avoid destroying manual commits.",
         .deleteRef ("heads/" ++ prBranch),
         .createRef ("refs/heads/" ++ prBranch) sha,
         .info ("Recreated branch " ++ prBranch ++ " from " ++ defaultBranch)])) := by
  refine ⟨?_, ?_, ?_⟩
  · unfold run
    rcases hp : preRemote cfg with t | ts
    · exact all_imp_events (fun _ => bnot_remote_noForced)
        (preRemote_error_nonremote hp)
    · obtain ⟨t, st⟩ := ts
      obtain ⟨v, hv, hcp⟩ := preRemote_ok_shape hp
      obtain ⟨d, hd, had⟩ := remotePhase_delta cfg st env t
      dsimp only
      rw [hd]
      exact all_append_combine
        (all_imp_events (fun _ => bnot_remote_noForced)
          (contentPhase_ok_shape hcp).1)
        (all_imp_events (fun _ => remoteDeltaOK_noForced) had)
  · intro prBranch defaultBranch sha acc m hc hu
    unfold branchStep
    rw [hc, hu]
    dsimp only
    rw [append2]
    rfl
  · intro prBranch defaultBranch sha acc m mu hc hu hdel hagain
    unfold branchStep
    rw [hc, hu, hdel, hagain]
    dsimp only
    rw [append3]
    rfl

/-- Witness for C1: a full run over a diverged-branch oracle never forces
a ref update, and the two recovery sequences hold at concrete inputs. -/
theorem c1_no_forced_ref_update_witness :
    (run cfg0 envDivergedRecreated).all noForcedUpdate = true ∧
    branchStep "b" "main" "s" { env0 with createRefOk := Except.error "exists" }
        [] =
      Except.ok ([] ++
        [.createRef ("refs/heads/" ++ "b") "s",
         .updateRef ("heads/" ++ "b") "s" false,
         .info ("Updated branch " ++ "b")]) ∧
    branchStep "b" "main" "s" envDivergedRecreated [] =
      Except.ok ([] ++
        [.createRef ("refs/heads/" ++ "b") "s",
         .updateRef ("heads/" ++ "b") "s" false,
         .warning ("Branch " ++ "b" ++ " has diverged from " ++ "main" ++
           ": " ++ "Update is not a fast forward"),
         .warning "Deleting and recreating branch to avoid destroying manual commits.",
         .deleteRef ("heads/" ++ "b"),
         .createRef ("refs/heads/" ++ "b") "s",
         .info ("Recreated branch " ++ "b" ++ " from " ++ "main")]) :=
  ⟨(c1_no_forced_ref_update cfg0 envDivergedRecreated).1,
   (c1_no_forced_ref_update cfg0
      { env0 with createRefOk := Except.error "exists" }).2.1
     "b" "main" "s" [] "exists" rfl rfl,
   (c1_no_forced_ref_update cfg0 envDivergedRecreated).2.2
     "b" "main" "s" [] "Reference already exists" "Update is not a fast forward"
     rfl rfl rfl rfl⟩

/-- When the working branch has diverged and deleting or recreating it
fails, the branch step hard-aborts: its trace ends with the
`recreateFailMsg` failure and contains only branch-step events. -/
theorem branchStep_diverged_error (prBranch defaultBranch sha : String)
    (env : RemoteEnv) (acc : List Event) {e1 mu m2 : String}
    (hc : env.createRefOk = Except.error e1)
    (hu : env.updateRefOk = Except.error mu)
    (hd : env.deleteRefOk = Except.error m2 ∨
      (env.deleteRefOk = Except.ok () ∧ env.createRefAgainOk = Except.error m2)) :
    ∃ d, branchStep prBranch defaultBranch sha env acc =
        Except.error (acc ++ d) ∧
      d.all branchEventOK = true ∧
      (acc ++ d).getLast? = some (Event.setFailed (recreateFailMsg prBranch m2)) := by
  unfold branchStep
  rw [hc, hu]
  dsimp only
  rcases hd with hd | ⟨hd, hca⟩
  · rw [hd]
    dsimp only
    refine ⟨_, congrArg Except.error (append3 ..), rfl, ?_⟩
    simp
  · rw [hd, hca]
    dsimp only
    refine ⟨_, congrArg Except.error (append3 ..), rfl, ?_⟩
    simp

/-- Under the same failure oracle, the whole remote phase appends only
mutation-free events (the run aborts inside the branch step). -/
theorem remotePhase_diverged_nomut (cfg : Config) (st : PreState)
    (env : RemoteEnv) (acc : List Event) {e1 mu m2 : String}
    (hc : env.createRefOk = Except.error e1)
    (hu : env.updateRefOk = Except.error mu)
    (hd : env.deleteRefOk = Except.error m2 ∨
      (env.deleteRefOk = Except.ok () ∧ env.createRefAgainOk = Except.error m2))
    (hacc : acc.all (fun e => !isRemoteMutation e) = true) :
    (remotePhase cfg st env acc).all (fun e => !isRemoteMutation e) = true := by
  unfold remotePhase
  dsimp only
  obtain ⟨d0, h0, ha0⟩ := resolveDefaultBranch_delta cfg env acc
  have ha0m : d0.all (fun e => !isRemoteMutation e) = true :=
    all_imp_events (fun _ => resolveEventOK_nomut) ha0
  rw [h0]
  rcases href : env.getRefSha with m | sha
  · exact all_append_combine (all_append_combine hacc ha0m) rfl
  · dsimp only
    obtain ⟨d1, hb, ha1, _⟩ := branchStep_diverged_error st.prBranch
      (resolveDefaultBranch cfg env acc).1 sha env
      ((acc ++ d0) ++ [.getRef ("heads/" ++ (resolveDefaultBranch cfg env acc).1)])
      hc hu hd
    rw [hb]
    dsimp only
    exact all_append_combine
      (all_append_combine (all_append_combine hacc ha0m) rfl)
      (all_imp_events (fun _ => branchEventOK_nomut) ha1)

/-- C2: in the diverged-branch path, a failure of the delete-ref or of
the subsequent create-ref hard-aborts the branch step with a message that
names the working branch and instructs manual deletion, and the whole run
performs no remote mutation (no file commit, no PR create or update). -/
theorem c2_diverged_recreate_abort (cfg : Config) (env : RemoteEnv)
    (prBranch defaultBranch sha : String) (acc : List Event) (e1 mu m2 : String)
    (hc : env.createRefOk = Except.error e1)
    (hu : env.updateRefOk = Except.error mu)
    (hd : env.deleteRefOk = Except.error m2 ∨
      (env.deleteRefOk = Except.ok () ∧ env.createRefAgainOk = Except.error m2)) :
    (∃ t, branchStep prBranch defaultBranch sha env acc = Except.error t ∧
      t.getLast? = some (Event.setFailed (recreateFailMsg prBranch m2))) ∧
    prBranch.data <:+: (recreateFailMsg prBranch m2).data ∧
    ("Please manually delete the branch and re-run the action.").data <:+:
      (recreateFailMsg prBranch m2).data ∧
    (run cfg env).all (fun e => !isRemoteMutation e) = true := by
  refine ⟨?_, ?_, ?_, ?_⟩
  · obtain ⟨d, hb, _, hlast⟩ :=
      branchStep_diverged_error prBranch defaultBranch sha env acc hc hu hd
    exact ⟨acc ++ d, hb, hlast⟩
  · refine ⟨"Branch ".data,
      (" has diverged and could not be recreated: " ++ m2 ++
        ". Please manually delete the branch and re-run the action.").data, ?_⟩
    unfold recreateFailMsg
    simp only [strAppend_data, List.append_assoc]
  · have h1 : ("Please manually delete the branch and re-run the action.").data <:+:
        (". Please manually delete the branch and re-run the action.").data := by
      decide
    have h2 : (". Please manually delete the branch and re-run the action.").data <:+:
        (recreateFailMsg prBranch m2).data := by
      refine ⟨("Branch " ++ prBranch ++
        " has diverged and could not be recreated: " ++ m2).data, [], ?_⟩
      unfold recreateFailMsg
      simp [strAppend_data, List.append_assoc]
    exact h1.trans h2
  · unfold run
    rcases hp : preRemote cfg with t | ts
    · exact all_imp_events (fun _ => bnot_remote_nomut)
        (preRemote_error_nonremote hp)
    · obtain ⟨t, st⟩ := ts
      obtain ⟨v, hv, hcp⟩ := preRemote_ok_shape hp
      dsimp only
      exact remotePhase_diverged_nomut cfg st env t hc hu hd
        (all_imp_events (fun _ => bnot_remote_nomut)
          (contentPhase_ok_shape hcp).1)

/-- Witness for C2 at a concrete diverged-and-stuck oracle. -/
theorem c2_diverged_recreate_abort_witness :
    (∃ t, branchStep "b" "main" "s" envDivergedStuck [] = Except.error t ∧
      t.getLast? = some (Event.setFailed
        (recreateFailMsg "b" "Reference does not exist"))) ∧
    "b".data <:+: (recreateFailMsg "b" "Reference does not exist").data ∧
    ("Please manually delete the branch and re-run the action.").data <:+:
      (recreateFailMsg "b" "Reference does not exist").data ∧
    (run cfg0 envDivergedStuck).all (fun e => !isRemoteMutation e) = true :=
  c2_diverged_recreate_abort cfg0 envDivergedStuck "b" "main" "s" []
    "Reference already exists" "Update is not a fast forward"
    "Reference does not exist" rfl rfl (Or.inl rfl)

/-- When both commit attempts fail, the commit step performs exactly two
`create-or-update-file-content` calls — the original and one retry with
the freshly re-fetched revision marker — and surfaces the second error
through the top-level handler. -/
theorem commitStep_double_failure (readmePath prTitle prBranch content : String)
    (env : RemoteEnv) (acc : List Event) {m m2 : String}
    (h1 : env.commitOk = Except.error m)
    (h2 : env.commitRetryOk = Except.error m2) :
    commitStep readmePath prTitle prBranch content env acc =
      Except.error (acc ++
        [.getContent readmePath prBranch,
         .commitFile readmePath content prTitle prBranch env.getContentSha,
         .warning ("File content update failed, retrying once: " ++ m),
         .getContent readmePath prBranch,
         .commitFile readmePath content prTitle prBranch env.getContentShaRetry,
         .setFailed m2]) := by
  unfold commitStep
  rw [h1, h2]
  dsimp only
  rw [append3]
  rfl

theorem no_commit_of_all {pOK : Event → Bool} {l : List Event}
    (hall : l.all pOK = true)
    (hP : ∀ p c msg bch s, pOK (.commitFile p c msg bch s) = false)
    {p c msg bch s : _} (hmem : Event.commitFile p c msg bch s ∈ l) : False := by
  have hx := List.all_eq_true.mp hall _ hmem
  rw [hP] at hx
  exact absurd hx (by decide)

/-- C3: with a failing commit oracle the commit step issues exactly one
retry using the re-fetched revision marker and aborts with the second
error; any run that reaches the commit step still reports the
badge-markup, badge-count and branch-name outputs set earlier, and its
trace ends with that failure. -/
theorem c3_commit_single_retry (cfg : Config) (env : RemoteEnv)
    (readmePath prTitle prBranch content : String) (acc : List Event)
    (m m2 : String)
    (h1 : env.commitOk = Except.error m)
    (h2 : env.commitRetryOk = Except.error m2) :
    commitStep readmePath prTitle prBranch content env acc =
      Except.error (acc ++
        [.getContent readmePath prBranch,
         .commitFile readmePath content prTitle prBranch env.getContentSha,
         .warning ("File content update failed, retrying once: " ++ m),
         .getContent readmePath prBranch,
         .commitFile readmePath content prTitle prBranch env.getContentShaRetry,
         .setFailed m2]) ∧
    (∀ p c msg bch s, Event.commitFile p c msg bch s ∈ run cfg env →
      (∃ vmd, Event.setOutput "badges-markdown" vmd ∈ run cfg env) ∧
      (∃ vc, Event.setOutput "badges-count" vc ∈ run cfg env) ∧
      (∃ vb, Event.setOutput "pr-branch" vb ∈ run cfg env) ∧
      (run cfg env).getLast? = some (Event.setFailed m2)) := by
  refine ⟨commitStep_double_failure readmePath prTitle prBranch content env acc
    h1 h2, ?_⟩
  intro p c msg bch s hmem
  rcases hp : preRemote cfg with t | ts
  · have hrun : run cfg env = t := by
      unfold run
      rw [hp]
    rw [hrun] at hmem
    exact absurd hmem (fun hm => no_commit_of_all
      (preRemote_error_nonremote hp) (fun _ _ _ _ _ => rfl) hm)
  · obtain ⟨t, st⟩ := ts
    obtain ⟨v, hv, hcp⟩ := preRemote_ok_shape hp
    obtain ⟨htall, htmd, htc, htb⟩ := contentPhase_ok_shape hcp
    have hrun : run cfg env = remotePhase cfg st env t := by
      unfold run
      rw [hp]
    rw [hrun] at hmem ⊢
    unfold remotePhase at hmem ⊢
    dsimp only at hmem ⊢
    obtain ⟨d0, h0, ha0⟩ := resolveDefaultBranch_delta cfg env t
    rw [h0] at hmem ⊢
    rcases href : env.getRefSha with me | sha
    · rw [href] at hmem
      dsimp only at hmem
      exfalso
      rcases List.mem_append.mp hmem with hm | hm
      · rcases List.mem_append.mp hm with hm2 | hm2
        · exact no_commit_of_all htall (fun _ _ _ _ _ => rfl) hm2
        · exact no_commit_of_all
            (all_imp_events (fun e he => he) ha0)
            (fun _ _ _ _ _ => rfl) hm2
      · simp at hm
    · rw [href] at hmem
      dsimp only at hmem ⊢
      obtain ⟨d1, hd1, ha1⟩ := branchStep_delta st.prBranch
        (resolveDefaultBranch cfg env t).1 sha env
        ((t ++ d0) ++ [.getRef ("heads/" ++ (resolveDefaultBranch cfg env t).1)])
      rcases hbs : branchStep st.prBranch (resolveDefaultBranch cfg env t).1 sha
          env ((t ++ d0) ++
            [.getRef ("heads/" ++ (resolveDefaultBranch cfg env t).1)]) with tb | tb
      · rw [hbs] at hmem hd1
        simp only [traceOf] at hd1
        dsimp only at hmem
        exfalso
        rw [hd1] at hmem
        rcases List.mem_append.mp hmem with hm | hm
        · rcases List.mem_append.mp hm with hm2 | hm2
          · rcases List.mem_append.mp hm2 with hm3 | hm3
            · exact no_commit_of_all htall (fun _ _ _ _ _ => rfl) hm3
            · exact no_commit_of_all
                (all_imp_events (fun e he => he) ha0)
                (fun _ _ _ _ _ => rfl) hm3
          · simp at hm2
        · exact no_commit_of_all ha1 (fun _ _ _ _ _ => rfl) hm
      · rw [hbs] at hmem hd1
        simp only [traceOf] at hd1
        dsimp only at hmem
        rw [commitStep_double_failure st.readmePath st.prTitle st.prBranch
          st.content env tb h1 h2] at hmem
        dsimp only at hmem
        rw [hbs]
        dsimp only
        rw [commitStep_double_failure st.readmePath st.prTitle st.prBranch
          st.content env tb h1 h2]
        dsimp only
        have hsub : ∀ e : Event, e ∈ t → e ∈ tb ++
            [Event.getContent st.readmePath st.prBranch,
             Event.commitFile st.readmePath st.content st.prTitle st.prBranch
               env.getContentSha,
             Event.warning ("File content update failed, retrying once: " ++ m),
             Event.getContent st.readmePath st.prBranch,
             Event.commitFile st.readmePath st.content st.prTitle st.prBranch
               env.getContentShaRetry,
             Event.setFailed m2] := by
          intro e he
          apply List.mem_append_left
          rw [hd1]
          exact List.mem_append_left _ (List.mem_append_left _
            (List.mem_append_left _ he))
        refine ⟨⟨renderedMarkup cfg v, hsub _ htmd⟩, ?_, ⟨v.prBranch, hsub _ htb⟩, ?_⟩
        · obtain ⟨n, hn⟩ := htc
          exact ⟨n, hsub _ hn⟩
        · simp

set_option maxRecDepth 100000 in
/-- Witness for C3 at a concrete double-failing commit oracle. -/
theorem c3_commit_single_retry_witness :
    (commitStep "README.md" "t" "b" "c" envCommitFails [] =
      Except.error ([] ++
        [.getContent "README.md" "b",
         .commitFile "README.md" "c" "t" "b" envCommitFails.getContentSha,
         .warning ("File content update failed, retrying once: " ++ "Conflict"),
         .getContent "README.md" "b",
         .commitFile "README.md" "c" "t" "b" envCommitFails.getContentShaRetry,
         .setFailed "Conflict again"])) ∧
    ((∃ vmd, Event.setOutput "badges-markdown" vmd ∈ run cfg0 envCommitFails) ∧
     (∃ vc, Event.setOutput "badges-count" vc ∈ run cfg0 envCommitFails) ∧
     (∃ vb, Event.setOutput "pr-branch" vb ∈ run cfg0 envCommitFails) ∧
     (run cfg0 envCommitFails).getLast? = some (Event.setFailed "Conflict again")) :=
  ⟨(c3_commit_single_retry cfg0 envCommitFails "README.md" "t" "b" "c" []
      "Conflict" "Conflict again" rfl rfl).1,
   (c3_commit_single_retry cfg0 envCommitFails "README.md" "t" "b" "c" []
      "Conflict" "Conflict again" rfl rfl).2
     "README.md" content0 "chore: update version health badges"
     "releaserun/badges-update" (some "fsha") (by decide)⟩

set_option maxRecDepth 100000 in
/-- C4 counterexample: against a document that already contains the
current markup between the markers, the splice reports markers found but
`updated = false`, and the run makes no remote call at all — in
particular the commit step is NOT invoked and no PR update happens,
contrary to the claim. -/
theorem c4_counterexample :
    (updateReadmeContent content0 markup0).markersFound = true ∧
    (updateReadmeContent content0 markup0).updated = false ∧
    (run cfg4 env0).all (fun e => !isRemoteEvent e) = true := by decide

/-- A run whose splice finds nothing to change terminates inside the
content phase. -/
theorem contentPhase_no_update_error {cfg : Config} {v : ValidConfig}
    {doc : String} (hread : cfg.readFileResult = Except.ok doc)
    (hsplice : (spliceOf cfg v doc).updated = false) :
    ∃ t, contentPhase cfg v = Except.error t := by
  unfold contentPhase
  split
  · exact ⟨_, rfl⟩
  · rw [hread]
    dsimp only
    split
    · exact ⟨_, rfl⟩
    · rw [if_pos (by rw [hsplice]; rfl)]
      exact ⟨_, rfl⟩

/-- C4 (amended): when the document already contains the current rendered
markup between the markers, the splice reports `updated = false` and the
run stops there — no remote call of any kind is made (no file commit, no
PR create or update). -/
theorem c4_uptodate_no_remote_calls (cfg : Config) (env : RemoteEnv)
    (v : ValidConfig) (doc : String)
    (hcfg : configPhase cfg = Except.ok v)
    (hread : cfg.readFileResult = Except.ok doc)
    (hsplice : (spliceOf cfg v doc).updated = false) :
    (run cfg env).all (fun e => !isRemoteEvent e) = true := by
  unfold run
  rcases hp : preRemote cfg with t | ts
  · exact preRemote_error_nonremote hp
  · obtain ⟨t, st⟩ := ts
    obtain ⟨v2, hv2, hcp⟩ := preRemote_ok_shape hp
    rw [hcfg] at hv2
    replace hv2 := (Except.ok.injEq ..).mp hv2
    subst hv2
    obtain ⟨te, hte⟩ := contentPhase_no_update_error hread hsplice
    rw [hte] at hcp
    exact absurd hcp (by simp)

set_option maxRecDepth 100000 in
/-- Witness for C4 (amended) at the concrete up-to-date document. -/
theorem c4_uptodate_no_remote_calls_witness :
    (run cfg4 env0).all (fun e => !isRemoteEvent e) = true :=
  c4_uptodate_no_remote_calls cfg4 env0
    ⟨"health,eol", "README.md", "chore: update version health badges",
      "releaserun/badges-update", "flat", LinkTo.badgePage, Option.none⟩
    content0 rfl rfl (by decide)

end Badges
